import Mathlib

set_option maxHeartbeats 1000000

/-
Shallow embedding of the geospatial join-and-reconciliation layer of the
civic-engagements-streamlit repository (src/utils.py, src/utils_pro.py,
src/utils_mun.py).

Python strings are modeled as lists of characters (PyStr).  Pandas cell
values are modeled by the Value type: Python None, float NaN, integers,
floats (as rationals), strings, and polygon geometries (a geometry is an
abstract finite set of base polygons, so that the polygonal union of the
dissolve step is set union).  DataFrames are a list of column labels plus
rows given as association lists from column label to cell value.

Modeling notes, applied consistently below:
 * Character-level operations (strip, lower, whitespace classes) follow the
   ASCII fragment of the Python semantics; the source data is ASCII-ish
   district names and numbers.
 * str(x) for floats is abstracted (ratStr); the composite-key paths only
   ever see integers, strings, None and NaN for the loaded data, where the
   rendering is exact.
 * Topology-preserving geometry simplification is a lossy numeric operation
   on real polygons; on abstract geometries it is modeled as the identity
   (the source wraps it in try/except so it never raises).
 * Reading a column that a row does not carry yields NaN (pandas-aligned
   frames never hit this).  The explicit raises of the source are modeled
   in the Except monad: the missing-year guard, the year-filter KeyError on
   the turnout side, the no-valid-join-key ValueError, and the KeyError of
   the delta step when riding_name is absent.
-/

namespace Civic

abbrev PyStr := List Char

def ps (s : String) : PyStr := s.toList

/-- Python whitespace class, ASCII fragment, by code point: space, tab,
newline, carriage return, vertical tab, form feed. -/
def isWs (c : Char) : Bool :=
  c.toNat == 32 || c.toNat == 9 || c.toNat == 10 || c.toNat == 13 || c.toNat == 11 || c.toNat == 12

/-- Python str.strip(): drop leading and trailing whitespace. -/
def stripWs (s : PyStr) : PyStr :=
  ((s.dropWhile isWs).reverse.dropWhile isWs).reverse

/-- Python str.lower(), ASCII fragment: map the 26 uppercase letters down. -/
def lowerChar (c : Char) : Char :=
  if 65 ≤ c.toNat ∧ c.toNat ≤ 90 then Char.ofNat (c.toNat + 32) else c

def lowerStr (s : PyStr) : PyStr := s.map lowerChar

/-- The regex substitution of a whitespace run by a single space
(re: backslash-s-plus to one space), as used by normalize_names. -/
def collapseWs : PyStr → PyStr
  | [] => []
  | [c] => if isWs c then [' '] else [c]
  | c1 :: c2 :: rest =>
    if isWs c1 && isWs c2 then collapseWs (c2 :: rest)
    else (if isWs c1 then ' ' else c1) :: collapseWs (c2 :: rest)

/-- Python str.replace with a two-space pattern and a one-space replacement:
non-overlapping, scanning left to right (utils_pro.normalize_one). -/
def replaceDoubleSpace : PyStr → PyStr
  | ' ' :: ' ' :: rest => ' ' :: replaceDoubleSpace rest
  | c :: rest => c :: replaceDoubleSpace rest
  | [] => []

/-- Python str.replace for a single-character pattern and replacement. -/
def mapChar (a b : Char) (s : PyStr) : PyStr :=
  s.map (fun c => if c = a then b else c)

/-- Python str.replace of a single character by the empty string. -/
def delChar (a : Char) (s : PyStr) : PyStr := s.filter (fun c => !(c == a))

/-- Python substring containment (the `in` operator on str). -/
def strContains : PyStr → PyStr → Bool
  | hay, needle =>
    match hay with
    | [] => needle.isEmpty
    | c :: t => needle.isPrefixOf (c :: t) || strContains t needle

/-- A pandas cell value. -/
inductive Value where
  | vnull : Value
  | vnan : Value
  | vint : Int → Value
  | vrat : Rat → Value
  | vstr : PyStr → Value
  | vgeom : List Nat → Value
deriving DecidableEq

/-- pd.isna. -/
def isna : Value → Bool
  | .vnull => true
  | .vnan => true
  | _ => false

def intStr (n : Int) : PyStr := (toString n).toList

/-- str() of a float, abstracted: integral floats render with a trailing .0
exactly as in Python; non-integral floats get a placeholder rendering (the
key-building paths never see them in the loaded data). -/
def ratStr (q : Rat) : PyStr :=
  if q.den = 1 then intStr q.num ++ ps ".0"
  else intStr q.num ++ ps "/" ++ (toString q.den).toList

/-- Python str(x) on a cell value (astype(str) elementwise): str(None) is
the four-letter string None, str(nan) is nan. -/
def pyStrv : Value → PyStr
  | .vnull => ps "None"
  | .vnan => ps "nan"
  | .vint n => intStr n
  | .vrat q => ratStr q
  | .vstr s => s
  | .vgeom _ => ps "<geometry>"

/-- normalize_names (utils.py): fillna, astype(str), strip, collapse
whitespace runs, lowercase.  The Series operation is modeled per element. -/
def nnStr (s : PyStr) : PyStr := lowerStr (collapseWs (stripWs s))

def normalize_names (v : Value) : Value :=
  .vstr (nnStr (pyStrv (if isna v then .vstr [] else v)))

/-- normalize_one (utils_pro.py): non-strings map to the empty string;
strings are stripped, lowercased, double spaces replaced once, and the em
and en dashes mapped to a hyphen. -/
def normalize_one (x : Value) : PyStr :=
  match x with
  | .vstr s => mapChar '–' '-' (mapChar '—' '-' (replaceDoubleSpace (lowerStr (stripWs s))))
  | _ => []

/-- Inner loop of find_col_by_keywords: first keyword contained in the
lowered label. -/
def findKw (low : PyStr) : List PyStr → Bool
  | [] => false
  | kw :: rest => if strContains low (lowerStr kw) then true else findKw low rest

/-- Outer loop of find_col_by_keywords over the column labels. -/
def findColGo (keywords : List PyStr) : List PyStr → Option PyStr
  | [] => none
  | c :: rest =>
    if findKw (lowerStr (stripWs c)) keywords then some c else findColGo keywords rest

/-- find_col_by_keywords (utils.py): None input gives None, otherwise the
first column whose stripped lowered label contains any lowered keyword. -/
def find_col_by_keywords (cols : Option (List PyStr)) (keywords : List PyStr) : Option PyStr :=
  match cols with
  | none => none
  | some cs => findColGo keywords cs

/-- Python int(string): strip whitespace, optional sign, decimal digits. -/
def digitsVal (acc : Nat) : PyStr → Option Nat
  | [] => some acc
  | c :: t => if c.isDigit then digitsVal (acc * 10 + (c.toNat - 48)) t else none

def pyParseInt (s : PyStr) : Option Int :=
  match stripWs s with
  | [] => none
  | '-' :: rest => if rest.isEmpty then none else (digitsVal 0 rest).map (fun n => -(n : Int))
  | '+' :: rest => if rest.isEmpty then none else (digitsVal 0 rest).map (fun n => (n : Int))
  | rest => (digitsVal 0 rest).map (fun n => (n : Int))

/-- The regex substitution removing one trailing group of a dot followed by
one or more zeros (re: backslash-dot zero-plus end-anchor). -/
def subDot0 (s : PyStr) : PyStr :=
  let r := s.reverse
  let zs := r.takeWhile (fun c => c = '0')
  let rest := r.drop zs.length
  if zs ≠ [] ∧ rest.head? = some '.' then (rest.drop 1).reverse else s

/-- Python int() truncation toward zero on a float. -/
def ratTrunc (q : Rat) : Int := Int.tdiv q.num (q.den : Int)

/-- The local _safe_str of load_gpkg: NA to empty, else str(int(x)) when
int() succeeds, else the trailing-dot-zeros substitution of str(x),
stripped. -/
def safeStr (x : Value) : PyStr :=
  match x with
  | .vnull => []
  | .vnan => []
  | .vint n => intStr n
  | .vrat q => intStr (ratTrunc q)
  | .vstr s =>
    match pyParseInt s with
    | some n => intStr n
    | none => stripWs (subDot0 s)
  | .vgeom _ => stripWs (subDot0 (ps "<geometry>"))

/-- The helper _safe_str_intlike (utils.py): NA to empty, integers to their digit
string, everything else to str(x) stripped with trailing dot-zeros
removed. -/
def safeStrIntlike (x : Value) : PyStr :=
  match x with
  | .vnull => []
  | .vnan => []
  | .vint n => intStr n
  | v => subDot0 (stripWs (pyStrv v))

/-- Composite geo_key of load_gpkg (line 132): safe year rendering, two
underscores, then str(riding_num).strip(). -/
def gpkgGeoKey (year riding_num : Value) : PyStr :=
  safeStr year ++ ps "__" ++ stripWs (pyStrv riding_num)

/-- The riding_num replacement of load_federal_csv (line 222): the string
values nan, None and none become missing before the key is built. -/
def fedRidingNumReplace (v : Value) : Value :=
  if v = .vstr (ps "nan") || v = .vstr (ps "None") || v = .vstr (ps "none") then .vnull else v

/-- Composite geo_key of load_federal_csv (lines 222-226). -/
def fedGeoKey (year riding_num : Value) : PyStr :=
  safeStrIntlike year ++ ps "__" ++ stripWs (pyStrv (fedRidingNumReplace riding_num))

/-- Digit-run accumulator for the turnout-percentage extraction. -/
def natOfDigits (s : PyStr) : Nat := s.foldl (fun a c => a * 10 + (c.toNat - 48)) 0

/-- The capture of the turnout regex at a position starting with a digit:
greedy digits, then optionally a dot followed by greedy digits. -/
def buildTok (s : PyStr) : PyStr :=
  let ds := s.takeWhile Char.isDigit
  let rest := s.dropWhile Char.isDigit
  match rest with
  | '.' :: r2 =>
    let fs := r2.takeWhile Char.isDigit
    if fs.isEmpty then ds else ds ++ '.' :: fs
  | _ => ds

/-- Series.str.extract with the turnout pattern: first match of
digits optionally followed by a dot and digits; None when no digit
occurs. -/
def extractNumTok : PyStr → Option PyStr
  | [] => none
  | c :: t => if c.isDigit then some (buildTok (c :: t)) else extractNumTok t

/-- pd.to_numeric on an extracted turnout token (always a valid decimal);
the decimal d1.d2 denotes the rational (d1 * 10^k + d2) / 10^k.  Built with
mkRat so the value is kernel-computable. -/
def tokToRat (t : PyStr) : Rat :=
  let ip := t.takeWhile Char.isDigit
  let rest := t.dropWhile Char.isDigit
  match rest with
  | '.' :: fs =>
    mkRat ((natOfDigits ip * 10 ^ fs.length + natOfDigits fs : Nat) : Int) (10 ^ fs.length)
  | _ => mkRat ((natOfDigits ip : Nat) : Int) 1

/-- The voter_participation_pct cleaning of load_federal_csv (lines
209-219): astype(str), drop percent signs, commas to dots, extract the
first numeric token, coerce; no match coerces to null. -/
def parseTurnoutPct (v : Value) : Option Rat :=
  (extractNumTok (mapChar ',' '.' (delChar '%' (pyStrv v)))).map tokToRat

/-- A DataFrame row: association list from column label to cell value. -/
abbrev Row := List (PyStr × Value)

/-- A DataFrame: ordered column labels plus rows. -/
structure DF where
  cols : List PyStr
  rows : List Row
deriving DecidableEq

/-- r.get(c, d): the value of column c in the row, or the default. -/
def rowGetD (r : Row) (c : PyStr) (d : Value) : Value := (List.lookup c r).getD d

/-- Assign a cell of a row, keeping column position, appending when new. -/
def rowSet : Row → PyStr → Value → Row
  | [], c, v => [(c, v)]
  | (c0, v0) :: t, c, v => if c0 = c then (c, v) :: t else (c0, v0) :: rowSet t c v

/-- df.rename(columns) for a single column (returns a new frame). -/
def renameCol (df : DF) (a b : PyStr) : DF :=
  { cols := df.cols.map (fun c => if c = a then b else c),
    rows := df.rows.map (fun r => r.map (fun e => if e.1 = a then (b, e.2) else e)) }

/-- Column assignment with an elementwise function of the whole row. -/
def setColWith (df : DF) (c : PyStr) (f : Row → Value) : DF :=
  { cols := if df.cols.contains c then df.cols else df.cols ++ [c],
    rows := df.rows.map (fun r => rowSet r c (f r)) }

/-- Series assignment df[c] = g(df[c]) elementwise. -/
def setColMap (df : DF) (c : PyStr) (g : Value → Value) : DF :=
  setColWith df c (fun r => g (rowGetD r c .vnan))

def setColConst (df : DF) (c : PyStr) (v : Value) : DF :=
  setColWith df c (fun _ => v)

/-- The comparison column == int(year) on a nullable-integer year column. -/
def valEqInt (v : Value) (y : Int) : Bool :=
  match v with
  | .vint n => n == y
  | .vrat q => q == mkRat y 1
  | _ => false

/-- df[df[year] == int(year)]. -/
def yearFilter (df : DF) (y : Int) : DF :=
  { cols := df.cols,
    rows := df.rows.filter (fun r => valEqInt (rowGetD r (ps "year") .vnan) y) }

/-- A total comparison on cell values, used to model the sorted group keys
of pandas groupby and the sort_values of the delta step: values are ranked
by kind, numerics compare as rationals, strings and geometries
lexicographically. -/
def valRank : Value → Nat
  | .vnull => 0
  | .vnan => 1
  | .vint _ => 2
  | .vrat _ => 2
  | .vstr _ => 3
  | .vgeom _ => 4

def toRatD : Value → Rat
  | .vint n => mkRat n 1
  | .vrat q => q
  | _ => 0

def lexLtChar : PyStr → PyStr → Bool
  | [], [] => false
  | [], _ :: _ => true
  | _ :: _, [] => false
  | a :: as1, b :: bs => if a = b then lexLtChar as1 bs else decide (a.toNat < b.toNat)

def lexLtNat : List Nat → List Nat → Bool
  | [], [] => false
  | [], _ :: _ => true
  | _ :: _, [] => false
  | a :: as1, b :: bs => if a = b then lexLtNat as1 bs else decide (a < b)

def valLt (a b : Value) : Bool :=
  if valRank a < valRank b then true
  else if valRank b < valRank a then false
  else match a, b with
    | .vstr s, .vstr t => lexLtChar s t
    | .vgeom s, .vgeom t => lexLtNat s t
    | x, y => Rat.blt (toRatD x) (toRatD y)

def valLe (a b : Value) : Bool := !(valLt b a)

/-- Insertion sort, the deterministic stand-in for the sorted iteration
order of pandas groupby and for sort_values. -/
def insertBy {α : Type} (le : α → α → Bool) (a : α) : List α → List α
  | [] => [a]
  | b :: t => if le a b then a :: b :: t else b :: insertBy le a t

def sortBy {α : Type} (le : α → α → Bool) (l : List α) : List α :=
  l.foldr (insertBy le) []

/-- The abstract polygon set of the geometry cell of a row. -/
def geomAtoms (r : Row) : List Nat :=
  match rowGetD r (ps "geometry") .vnan with
  | .vgeom g => g
  | _ => []

/-- unary_union over a group of rows: union of the abstract polygon sets. -/
def unionGeoms (rs : List Row) : List Nat :=
  rs.foldr (fun r acc => geomAtoms r ∪ acc) []

def rowKey (key : PyStr) (r : Row) : Value := rowGetD r key .vnan

def colKeys (key : PyStr) (rows : List Row) : List Value := rows.map (rowKey key)

/-- Series.duplicated(keep=False).any(): some key value occurs twice. -/
def hasDupKeys (key : PyStr) (rows : List Row) : Bool :=
  !(decide (colKeys key rows).Nodup)

/-- groupby aggfunc first: first non-NA value of the column in the group,
NaN when all are missing. -/
def firstNonNA (vs : List Value) : Value :=
  ((vs.filter (fun v => !isna v)).headD .vnan)

/-- GeoDataFrame.dissolve(by=key, as_index=False) restricted to the listed
attribute columns: one row per distinct key (in sorted key order), geometry
the union of the group, attributes aggregated with first. -/
def dissolveRows (key : PyStr) (attrs : List PyStr) (rows : List Row) : List Row :=
  (sortBy valLe (colKeys key rows).dedup).map (fun k =>
    let grp := rows.filter (fun r => rowKey key r == k)
    (key, k) :: (ps "geometry", Value.vgeom (unionGeoms grp)) ::
      attrs.map (fun a => (a, firstNonNA (grp.map (fun r => rowGetD r a .vnan)))))

/-- The manual per-key union fallback of the except branch: for each key
(sorted groupby order) take the first row of the group whole, overwrite its
geometry with the union and its key column with the key. -/
def manualUnionRows (key : PyStr) (rows : List Row) : List Row :=
  (sortBy valLe (colKeys key rows).dedup).map (fun k =>
    let grp := rows.filter (fun r => rowKey key r == k)
    rowSet (rowSet (grp.headD []) (ps "geometry") (Value.vgeom (unionGeoms grp))) key k)

/-- pandas merge suffix for a left column clashing with a right column. -/
def leftOutName (rcols : List PyStr) (onc c : PyStr) : PyStr :=
  if c ≠ onc ∧ c ∈ rcols then c ++ ps "_x" else c

/-- pandas merge suffix for a right column clashing with a left column. -/
def rightOutName (lcols : List PyStr) (c : PyStr) : PyStr :=
  if c ∈ lcols then c ++ ps "_y" else c

def mergeLeftPart (rcols : List PyStr) (onc : PyStr) (lcols : List PyStr) (lr : Row) : Row :=
  lcols.map (fun c => (leftOutName rcols onc c, rowGetD lr c .vnan))

def mergeRightPart (lcols : List PyStr) (onc : PyStr) (rcols : List PyStr) (rr : Row) : Row :=
  (rcols.filter (fun c => !(c == onc))).map (fun c => (rightOutName lcols c, rowGetD rr c .vnan))

def mergeRightNull (lcols : List PyStr) (onc : PyStr) (rcols : List PyStr) : Row :=
  (rcols.filter (fun c => !(c == onc))).map (fun c => (rightOutName lcols c, Value.vnan))

/-- The turnout rows matching the key of one geometry row. -/
def matchesFor (r : DF) (onc : PyStr) (lr : Row) : List Row :=
  r.rows.filter (fun rr => rowGetD rr onc .vnan == rowGetD lr onc .vnan)

/-- The merge output rows contributed by one left row: the matching right
rows, or a single right-null row when there is no match. -/
def mergeRowsFor (l r : DF) (onc : PyStr) (lr : Row) : List Row :=
  if (matchesFor r onc lr).isEmpty
  then [mergeLeftPart r.cols onc l.cols lr ++ mergeRightNull l.cols onc r.cols]
  else (matchesFor r onc lr).map
    (fun rr => mergeLeftPart r.cols onc l.cols lr ++ mergeRightPart l.cols onc r.cols rr)

/-- left.merge(right, on, how=left): every left row appears; a left row
with k matches contributes k output rows, one without a match contributes a
row whose right-side fields are NaN. -/
def mergeDF (l r : DF) (onc : PyStr) : DF :=
  { cols := l.cols.map (leftOutName r.cols onc) ++
      (r.cols.filter (fun c => !(c == onc))).map (rightOutName l.cols),
    rows := l.rows.flatMap (mergeRowsFor l r onc) }

def errMissingYear : PyStr := ps "GPKG missing year column."

def errKeyErrorYear : PyStr := ps "KeyError: year"

def errNoJoinKey : PyStr := ps "No valid join key found."

def errKeyErrorRidingName : PyStr := ps "KeyError: riding_name"

/-- detect_join_key (utils.py lines 36-53) on the column label lists: exact
match over riding_id, riding_name, name, then case-insensitive match; the
dict comprehension keeps the last column with a given lowering. -/
def possibleKeys : List PyStr := [ps "riding_id", ps "riding_name", ps "name"]

def lowerLookupLast (cols : List PyStr) (k : PyStr) : Option PyStr :=
  cols.reverse.find? (fun c => lowerStr c == k)

def detect_join_key (gcols dcols : List PyStr) : Option (PyStr ⊕ PyStr × PyStr) :=
  match possibleKeys.find? (fun k => gcols.contains k && dcols.contains k) with
  | some k => some (.inl k)
  | none =>
    match possibleKeys.find? (fun k =>
        (gcols.any (fun c => lowerStr c == k)) && (dcols.any (fun c => lowerStr c == k))) with
    | some k =>
      match lowerLookupLast gcols k, lowerLookupLast dcols k with
      | some gk, some dk => some (.inr (gk, dk))
      | _, _ => none
    | none => none

/-- geo_key nonempty restriction of the preferred path (line 257). -/
def keyedView (v : DF) : DF :=
  { cols := v.cols,
    rows := v.rows.filter (fun r => !((pyStrv (rowGetD r (ps "geo_key") .vnan)).length == 0)) }

/-- Preferred-path deduplication (lines 263-278): dissolve on geo_key
keeping geo_key, geometry, year; on a dissolve exception the manual union
keeps every column of the first group row. -/
def dedupPreferred (view2 : DF) (draise : Bool) : DF :=
  if hasDupKeys (ps "geo_key") view2.rows then
    if draise then { cols := view2.cols, rows := manualUnionRows (ps "geo_key") view2.rows }
    else { cols := [ps "geo_key", ps "geometry", ps "year"],
           rows := dissolveRows (ps "geo_key") [ps "year"] view2.rows }
  else view2

/-- Fallback-path deduplication (lines 341-364): dissolve on the join key
keeping the key, geometry and year when present, re-adding a constant year
column when it was absent; exception branch as above. -/
def dedupFallback (viewD : DF) (jk : PyStr) (y : Int) (draise : Bool) : DF :=
  if hasDupKeys jk viewD.rows then
    if draise then { cols := viewD.cols, rows := manualUnionRows jk viewD.rows }
    else
      let attrs := if viewD.cols.contains (ps "year") then [ps "year"] else []
      let d : DF := { cols := jk :: ps "geometry" :: attrs,
                      rows := dissolveRows jk attrs viewD.rows }
      if d.cols.contains (ps "year") then d else setColConst d (ps "year") (.vint y)
  else viewD

/-- Join-key detection of the fallback path (lines 295-320): the hint and
the candidate list by exact membership on both sides, then detect_join_key;
the third component records whether the local turnout frame still aliases
the callers object (false exactly when a rename produced a copy). -/
def fallbackCandidates (hint : Option PyStr) : List PyStr :=
  hint.toList ++ [ps "riding_id", ps "riding_name", ps "riding_num", ps "name"]

def detectStage (view fed : DF) (hint : Option PyStr) : Option (PyStr × DF × Bool) :=
  match (fallbackCandidates hint).find? (fun k => view.cols.contains k && fed.cols.contains k) with
  | some k => some (k, fed, true)
  | none =>
    match detect_join_key view.cols fed.cols with
    | some (.inl k) => some (k, fed, true)
    | some (.inr (gk, dk)) =>
      if fed.cols.contains dk ∧ gk ≠ dk then some (gk, renameCol fed dk gk, false)
      else some (gk, fed, true)
    | none => none

/-- Join-key normalization (lines 322-328): name-like keys get
normalize_names over astype(str), others astype(str).str.strip(). -/
def normCellName (v : Value) : Value := .vstr (nnStr (pyStrv v))

def normCellStrip (v : Value) : Value := .vstr (stripWs (pyStrv v))

def normStage (view fed1 : DF) (jk : PyStr) : DF × DF :=
  if strContains (lowerStr jk) (ps "name") then
    (setColMap view jk normCellName, setColMap fed1 jk normCellName)
  else
    (setColMap view jk normCellStrip, setColMap fed1 jk normCellStrip)

/-- The missing-key mask (lines 331-335). -/
def missingKeyCell (v : Value) : Bool :=
  isna v || (pyStrv v).length == 0 || lowerStr (pyStrv v) == ps "none"

def dropMissing (view : DF) (jk : PyStr) : DF :=
  { cols := view.cols,
    rows := view.rows.filter (fun r => !missingKeyCell (rowGetD r jk .vnan)) }

def vppCol : PyStr := ps "voter_participation_pct"

def prevCol : PyStr := ps "prev_participation"

/-- sort_values([idc, year]) comparison (pandas default sort is unstable;
the model fixes one deterministic order, which the claims never inspect). -/
def rowPairLe (idc : PyStr) (a b : Row) : Bool :=
  if rowGetD a idc .vnan == rowGetD b idc .vnan then
    valLe (rowGetD a (ps "year") .vnan) (rowGetD b (ps "year") .vnan)
  else valLe (rowGetD a idc .vnan) (rowGetD b idc .vnan)

/-- groupby(idc)[vpp].shift(1) over a frame sorted by [idc, year]: the
previous adjacent row of the same group, NaN at each group start. -/
def addPrev (idc : PyStr) : Option Row → List Row → List Row
  | _, [] => []
  | prev, r :: t =>
    let pv : Value :=
      match prev with
      | some p =>
        if rowGetD p idc .vnan == rowGetD r idc .vnan then rowGetD p vppCol .vnan else .vnan
      | none => .vnan
    rowSet r prevCol pv :: addPrev idc (some r) t

/-- Numeric subtraction of the delta column; any non-numeric side gives
NaN. -/
def valSub (a b : Value) : Value :=
  match a, b with
  | .vint m, .vint n => .vint (m - n)
  | .vint m, .vrat q => .vrat ((m : Rat) - q)
  | .vrat q, .vint n => .vrat (q - (n : Rat))
  | .vrat p, .vrat q => .vrat (p - q)
  | _, _ => .vnan

/-- The delta computation of the fallback path for one grouping column
(lines 378-410): sort, lag by one within the group, restrict to the
requested year, left-merge onto the joined frame when it carries the
column, and attach the difference. -/
def deltaBy (idc : PyStr) (fedN merged : DF) (y : Int) : DF :=
  let sorted := sortBy (rowPairLe idc) fedN.rows
  let shifted := addPrev idc none sorted
  let prevDF : DF :=
    { cols := [idc, prevCol],
      rows := (shifted.filter (fun r => valEqInt (rowGetD r (ps "year") .vnan) y)).map
        (fun r => [(idc, rowGetD r idc .vnan), (prevCol, rowGetD r prevCol .vnan)]) }
  if merged.cols.contains idc then
    let m2 := mergeDF merged prevDF idc
    setColWith m2 (ps "delta_pct")
      (fun r => valSub (rowGetD r vppCol .vnan) (rowGetD r prevCol .vnan))
  else merged

/-- Dispatch of the delta computation (line 377): requires the
voter_participation_pct column; grouping by riding_id when present, else by
riding_name, whose absence is the uncaught KeyError of sort_values. -/
def deltaStage (fedN merged : DF) (y : Int) : Except PyStr DF :=
  if fedN.cols.contains vppCol then
    if fedN.cols.contains (ps "riding_id") then .ok (deltaBy (ps "riding_id") fedN merged y)
    else if fedN.cols.contains (ps "riding_name") then .ok (deltaBy (ps "riding_name") fedN merged y)
    else .error errKeyErrorRidingName
  else .ok merged

/-- Topology-preserving simplification on abstract geometries: identity
(the source swallows simplification failures with try/except, lines
283-288 and 412-418). -/
def simplifyDF (df : DF) : DF := df

/-- The fallback join path of prepare_map_df (lines 292-420).  The result
triple is (returned frame, geometry input as the caller sees it afterwards,
turnout input as the caller sees it afterwards): the join-key normalization
writes through to the callers turnout frame exactly when no rename
re-bound the local name (lines 313, 324-328). -/
def fallbackJoin (viewF gAll fed0 : DF) (y : Int) (hint : Option PyStr) (draise : Bool) :
    Except PyStr (DF × DF × DF) :=
  match detectStage viewF fed0 hint with
  | none => .error errNoJoinKey
  | some (jk, fed1, aliased) =>
    let vn := normStage viewF fed1 jk
    let viewN := vn.1
    let fedN := vn.2
    let fedAfter := if aliased then fedN else fed0
    let viewD := dropMissing viewN jk
    if viewD.rows.isEmpty then .ok (viewD, gAll, fedAfter)
    else
      let viewE := dedupFallback viewD jk y draise
      if !(fedN.cols.contains (ps "year")) then .error errKeyErrorYear
      else
        let fy := yearFilter fedN y
        let merged := mergeDF viewE fy jk
        if merged.rows.isEmpty then .ok (merged, gAll, fedAfter)
        else
          match deltaStage fedN merged y with
          | .error e => .error e
          | .ok m2 => .ok (simplifyDF m2, gAll, fedAfter)

/-- The election_year naming reconciliation (lines 242-243). -/
def renameStage (gdf_all : DF) : DF :=
  if gdf_all.cols.contains (ps "election_year") ∧ ¬ (gdf_all.cols.contains (ps "year") = true)
  then renameCol gdf_all (ps "election_year") (ps "year") else gdf_all

/-- prepare_map_df (utils.py lines 233-420).  draise says whether the
dissolve calls raise (geopandas internal failure), selecting the manual
union fallback.  The result carries the frame returned to the caller plus
both inputs as observable after the call. -/
def prepare_map_df (gdf_all df_fed : DF) (year : Int) (hint : Option PyStr) (draise : Bool) :
    Except PyStr (DF × DF × DF) :=
  if !((renameStage gdf_all).cols.contains (ps "year")) then .error errMissingYear
  else
    let view := yearFilter (renameStage gdf_all) year
    if view.rows.isEmpty then .ok (view, gdf_all, df_fed)
    else if view.cols.contains (ps "geo_key") && df_fed.cols.contains (ps "geo_key") then
      let view2 := keyedView view
      if !view2.rows.isEmpty then
        if !(df_fed.cols.contains (ps "year")) then .error errKeyErrorYear
        else
          .ok (simplifyDF (mergeDF (dedupPreferred view2 draise) (yearFilter df_fed year)
                 (ps "geo_key")), gdf_all, df_fed)
      else fallbackJoin view2 gdf_all df_fed year hint draise
    else fallbackJoin view gdf_all df_fed year hint draise

/-- Whether a join call completed rather than raised. -/
def okB {ε α : Type} : Except ε α → Bool
  | .ok _ => true
  | .error _ => false

/-- The turnout frame as the caller observes it after a completed call. -/
def fedAfterOf (e : Except PyStr (DF × DF × DF)) : Option DF :=
  match e with
  | .ok t => some t.2.2
  | .error _ => none

/-- The row count of the frame returned by a completed call. -/
def okRowsLen (e : Except PyStr (DF × DF × DF)) : Option Nat :=
  match e with
  | .ok t => some t.1.rows.length
  | .error _ => none

instance exceptDecEq {ε α : Type} [DecidableEq ε] [DecidableEq α] :
    DecidableEq (Except ε α) := fun a b =>
  match a, b with
  | .error e1, .error e2 =>
    if h : e1 = e2 then isTrue (by rw [h]) else isFalse (fun hc => h (Except.error.inj hc))
  | .ok x, .ok y =>
    if h : x = y then isTrue (by rw [h]) else isFalse (fun hc => h (Except.ok.inj hc))
  | .error _, .ok _ => isFalse (fun hc => Except.noConfusion hc)
  | .ok _, .error _ => isFalse (fun hc => Except.noConfusion hc)

/-- A very small decimal-literal fragment of float(): strip whitespace,
optional sign, digits with an optional dot (exponents are not needed by
the municipal data, whose keys are plain integers). -/
def decCore (u : PyStr) : Option (Nat × Nat) :=
  let ip := u.takeWhile Char.isDigit
  let rest := u.drop ip.length
  match rest with
  | [] => if ip.isEmpty then none else some (natOfDigits ip, 1)
  | '.' :: fs =>
    if fs.all Char.isDigit ∧ ¬(ip.isEmpty ∧ fs.isEmpty) then
      some (natOfDigits ip * 10 ^ fs.length + natOfDigits fs, 10 ^ fs.length)
    else none
  | _ => none

def pyParseFloat (s : PyStr) : Option Rat :=
  match stripWs s with
  | '-' :: u => (decCore u).map (fun p => mkRat (-(p.1 : Int)) p.2)
  | '+' :: u => (decCore u).map (fun p => mkRat (p.1 : Int) p.2)
  | u => (decCore u).map (fun p => mkRat (p.1 : Int) p.2)

/-- pd.to_numeric(x, errors=coerce) on a cell: numbers pass through,
numeric strings parse, everything else coerces to missing. -/
def toNumeric (v : Value) : Option Rat :=
  match v with
  | .vint n => some (mkRat n 1)
  | .vrat q => some q
  | .vstr s => pyParseFloat s
  | _ => none

/-- A municipal geometry record (utils_mun.py): Year is an integer after
the loader, Ward and Sub are re-coerced by prepare_municipal_year_gdf. -/
structure MunGeoRow where
  myear : Int
  ward : Value
  sub : Value
  geom : List Nat
deriving DecidableEq

/-- A municipal turnout record. -/
structure MunTurnRow where
  tyear : Int
  ward : Value
  sub : Value
  pctVoted : Value
deriving DecidableEq

/-- A row of the municipal year join result. -/
structure MunOutRow where
  oyear : Int
  oward : Int
  osub : Int
  ogeom : List Nat
  opct : Value
deriving DecidableEq

/-- Year filter plus the Ward/Sub numeric alignment of
prepare_municipal_year_gdf (lines 123-138): to_numeric with coercion,
dropna on Ward and Sub, astype(int). -/
def munProcessGeo (y : Int) (g : List MunGeoRow) : List (Int × Int × Int × List Nat) :=
  (g.filter (fun r => r.myear == y)).filterMap (fun r =>
    match toNumeric r.ward, toNumeric r.sub with
    | some w, some s => some (r.myear, ratTrunc w, ratTrunc s, r.geom)
    | _, _ => none)

def munProcessTurn (y : Int) (t : List MunTurnRow) : List (Int × Int × Int × Value) :=
  (t.filter (fun r => r.tyear == y)).filterMap (fun r =>
    match toNumeric r.ward, toNumeric r.sub with
    | some w, some s => some (r.tyear, ratTrunc w, ratTrunc s, r.pctVoted)
    | _, _ => none)

def munKey3 {β : Type} (r : Int × Int × Int × β) : Int × Int × Int := (r.1, r.2.1, r.2.2.1)

def errMergeLeft : PyStr := ps "MergeError: merge keys are not unique in left dataset"

def errMergeRight : PyStr := ps "MergeError: merge keys are not unique in right dataset"

/-- The merge output rows contributed by one geometry record: matching
turnout records, or a single NaN-turnout row when none match. -/
def munRowsFor (ts : List (Int × Int × Int × Value)) (gr : Int × Int × Int × List Nat) :
    List MunOutRow :=
  if (ts.filter (fun tr => munKey3 tr == munKey3 gr)).isEmpty
  then [⟨gr.1, gr.2.1, gr.2.2.1, gr.2.2.2, .vnan⟩]
  else (ts.filter (fun tr => munKey3 tr == munKey3 gr)).map
    (fun tr => ⟨gr.1, gr.2.1, gr.2.2.1, gr.2.2.2, tr.2.2.2⟩)

/-- The left merge on (Year, Ward, Sub) underlying the municipal join. -/
def munLeftJoin (gs : List (Int × Int × Int × List Nat)) (ts : List (Int × Int × Int × Value)) :
    List MunOutRow :=
  gs.flatMap (munRowsFor ts)

/-- One geometry row joined with at most one turnout row: the
characterization of the validated one-to-one merge output. -/
def munJoinOne (ts : List (Int × Int × Int × Value)) (gr : Int × Int × Int × List Nat) :
    MunOutRow :=
  match ts.find? (fun tr => munKey3 tr == munKey3 gr) with
  | some tr => ⟨gr.1, gr.2.1, gr.2.2.1, gr.2.2.2, tr.2.2.2⟩
  | none => ⟨gr.1, gr.2.1, gr.2.2.1, gr.2.2.2, .vnan⟩

/-- prepare_municipal_year_gdf (utils_mun.py lines 110-147): year filter,
key alignment, then merge(validate=1:1), which raises a MergeError when
either side carries duplicate (Year, Ward, Sub) keys. -/
def prepare_municipal_year_gdf (y : Int) (g : List MunGeoRow) (t : List MunTurnRow) :
    Except PyStr (List MunOutRow) :=
  let gs := munProcessGeo y g
  let ts := munProcessTurn y t
  if !(decide (gs.map munKey3).Nodup) then .error errMergeLeft
  else if !(decide (ts.map munKey3).Nodup) then .error errMergeRight
  else .ok (munLeftJoin gs ts)

/- Concrete frames and rows used by witnesses and counterexamples. -/

/-- Two geometry rows sharing the composite key 2015__42 (the multi-part
district of the spec scenario). -/
def rowsDupEx : List Row :=
  [[(ps "year", .vint 2015), (ps "geo_key", .vstr (ps "2015__42")), (ps "geometry", .vgeom [1])],
   [(ps "year", .vint 2015), (ps "geo_key", .vstr (ps "2015__42")), (ps "geometry", .vgeom [2])]]

def gDupEx : DF := { cols := [ps "year", ps "geo_key", ps "geometry"], rows := rowsDupEx }

/-- A turnout frame with the preferred-path columns and no records. -/
def fedEmptyEx : DF := { cols := [ps "year", ps "geo_key"], rows := [] }

/-- A turnout frame with one 2015 record for key 2015__42. -/
def fedOneEx : DF :=
  { cols := [ps "year", ps "geo_key", ps "voter_participation_pct"],
    rows := [[(ps "year", .vint 2015), (ps "geo_key", .vstr (ps "2015__42")),
              (ps "voter_participation_pct", .vrat (mkRat 612 10))]] }

/-- Geometry and turnout frames joinable only through riding_name, with the
turnout name needing normalization (exercises the fallback path and the
in-place write to the turnout input). -/
def gNameEx : DF :=
  { cols := [ps "year", ps "riding_name", ps "geometry"],
    rows := [[(ps "year", .vint 2015), (ps "riding_name", .vstr (ps "A B")),
              (ps "geometry", .vgeom [0])]] }

def fedNameEx : DF :=
  { cols := [ps "year", ps "riding_name"],
    rows := [[(ps "year", .vint 2015), (ps "riding_name", .vstr (ps "  A  B "))]] }

/-- A geometry frame with neither a year nor an election_year column. -/
def gNoYearEx : DF := { cols := [ps "geometry"], rows := [[(ps "geometry", .vgeom [0])]] }

/-- A geometry/turnout pair with no shared join key and no composite key. -/
def gNoKeyEx : DF :=
  { cols := [ps "year", ps "geometry"],
    rows := [[(ps "year", .vint 2015), (ps "geometry", .vgeom [0])]] }

def fedNoKeyEx : DF := { cols := [ps "year"], rows := [[(ps "year", .vint 2015)]] }

/-- A geometry frame whose only record is for year 2011. -/
def gYearOnlyEx : DF :=
  { cols := [ps "year", ps "geometry"],
    rows := [[(ps "year", .vint 2011), (ps "geometry", .vgeom [0])]] }

/-- fedNameEx after the in-place join-key normalization of the fallback
path. -/
def fedNameMutEx : DF :=
  { cols := [ps "year", ps "riding_name"],
    rows := [[(ps "year", .vint 2015), (ps "riding_name", .vstr (ps "a b"))]] }

def munGeoEx : List MunGeoRow := [⟨2022, .vint 1, .vint 1, [7]⟩]

def munGeoDupEx : List MunGeoRow :=
  [⟨2022, .vint 1, .vint 1, [7]⟩, ⟨2022, .vstr (ps "1"), .vrat (mkRat 1 1), [8]⟩]

def munTurnEx : List MunTurnRow := [⟨2022, .vint 1, .vint 1, .vrat (mkRat 61 2)⟩]

def munTurnDupEx : List MunTurnRow :=
  [⟨2022, .vint 1, .vint 1, .vrat (mkRat 61 2)⟩, ⟨2022, .vrat (mkRat 1 1), .vint 1, .vnan⟩]

/- ===================================================================
   Lemmas and theorems
   =================================================================== -/

theorem ite_bool_pos {α : Sort u} {b : Bool} (h : b = true) {x y : α} :
    (if b = true then x else y) = x := by
  rw [h]
  simp

theorem ite_bool_neg {α : Sort u} {b : Bool} (h : b = false) {x y : α} :
    (if b = true then x else y) = y := by
  rw [h]
  simp

theorem lowerChar_toNat_of_upper (c : Char) (h : 65 ≤ c.toNat ∧ c.toNat ≤ 90) :
    (lowerChar c).toNat = c.toNat + 32 := by
  have hv : (c.toNat + 32).isValidChar := Or.inl (by omega)
  unfold lowerChar
  rw [if_pos h]
  unfold Char.ofNat
  simp [hv]
  rfl

theorem lowerChar_eq_self (c : Char) (h : ¬(65 ≤ c.toNat ∧ c.toNat ≤ 90)) :
    lowerChar c = c := by
  unfold lowerChar
  rw [if_neg h]

theorem lowerChar_idem (c : Char) : lowerChar (lowerChar c) = lowerChar c := by
  by_cases h : 65 ≤ c.toNat ∧ c.toNat ≤ 90
  · exact lowerChar_eq_self _ (by rw [lowerChar_toNat_of_upper c h]; omega)
  · rw [lowerChar_eq_self c h]
    exact lowerChar_eq_self c h

theorem isWs_iff (c : Char) :
    isWs c = true ↔
      c.toNat = 32 ∨ c.toNat = 9 ∨ c.toNat = 10 ∨ c.toNat = 13 ∨ c.toNat = 11 ∨ c.toNat = 12 := by
  unfold isWs
  simp only [Bool.or_eq_true, beq_iff_eq]
  tauto

theorem isWs_lowerChar (c : Char) : isWs (lowerChar c) = isWs c := by
  by_cases h : 65 ≤ c.toNat ∧ c.toNat ≤ 90
  · have h1 := lowerChar_toNat_of_upper c h
    have h2 : isWs (lowerChar c) = false := by
      rw [Bool.eq_false_iff, Ne, isWs_iff, h1]
      omega
    have h3 : isWs c = false := by
      rw [Bool.eq_false_iff, Ne, isWs_iff]
      omega
    rw [h2, h3]
  · rw [lowerChar_eq_self c h]

theorem isWs_funComp : isWs ∘ lowerChar = isWs := funext (fun c => isWs_lowerChar c)

theorem dropWhile_eq_self_of_head {p : Char → Bool} {s : PyStr}
    (h : ∀ c, s.head? = some c → p c = false) : s.dropWhile p = s := by
  cases s with
  | nil => rfl
  | cons c t =>
    have hc := h c rfl
    simp [List.dropWhile_cons, hc]

theorem head_dropWhile_false {p : Char → Bool} (s : PyStr) :
    ∀ c, (s.dropWhile p).head? = some c → p c = false := by
  induction s with
  | nil => intro c hc; cases hc
  | cons a t ih =>
    intro c hc
    by_cases hp : p a
    · rw [List.dropWhile_cons, if_pos hp] at hc
      exact ih c hc
    · rw [List.dropWhile_cons, if_neg hp] at hc
      cases hc
      exact Bool.eq_false_iff.mpr hp

theorem stripWs_eq_self (s : PyStr) (h1 : ∀ c, s.head? = some c → isWs c = false)
    (h2 : ∀ c, s.getLast? = some c → isWs c = false) : stripWs s = s := by
  unfold stripWs
  rw [dropWhile_eq_self_of_head h1]
  rw [dropWhile_eq_self_of_head (fun c hc => h2 c (by rwa [List.head?_reverse] at hc))]
  exact List.reverse_reverse s

theorem stripWs_last (s : PyStr) :
    ∀ c, (stripWs s).getLast? = some c → isWs c = false := by
  intro c hc
  unfold stripWs at hc
  rw [List.getLast?_reverse] at hc
  exact head_dropWhile_false _ c hc

theorem stripWs_head (s : PyStr) :
    ∀ c, (stripWs s).head? = some c → isWs c = false := by
  intro c hc
  unfold stripWs at hc
  set s1 := s.dropWhile isWs with hs1
  obtain ⟨t, ht⟩ := List.dropWhile_suffix (l := s1.reverse) (p := isWs)
  have hs : s1 = (s1.reverse.dropWhile isWs).reverse ++ t.reverse := by
    calc s1 = s1.reverse.reverse := (List.reverse_reverse s1).symm
    _ = (t ++ s1.reverse.dropWhile isWs).reverse := by rw [ht]
    _ = _ := by rw [List.reverse_append]
  have h1 : s1.head? = some c := by
    rw [hs, List.head?_append, hc]
    rfl
  exact head_dropWhile_false s c (hs1 ▸ h1)

theorem collapseWs_head (c : Char) (rest : PyStr) :
    (collapseWs (c :: rest)).head? = some (if isWs c then ' ' else c) := by
  induction rest generalizing c with
  | nil => unfold collapseWs; split <;> rfl
  | cons c2 t ih =>
    show (collapseWs (c :: c2 :: t)).head? = _
    unfold collapseWs
    by_cases h1 : isWs c
    · by_cases h2 : isWs c2
      · rw [if_pos (by rw [h1, h2]; rfl)]
        rw [ih c2, if_pos h2, if_pos h1]
      · rw [if_neg (by rw [Bool.eq_false_iff.mpr h2]; simp)]
        rfl
    · rw [if_neg (by rw [Bool.eq_false_iff.mpr h1]; simp)]
      rfl

theorem collapseWs_ne_nil (c : Char) (rest : PyStr) : collapseWs (c :: rest) ≠ [] := by
  intro h
  have := collapseWs_head c rest
  rw [h] at this
  cases this

theorem collapseWs_allSpace (s : PyStr) :
    ∀ c ∈ collapseWs s, isWs c = true → c = ' ' := by
  induction s using collapseWs.induct with
  | case1 => intro c hc; cases hc
  | case2 c hws =>
    intro d hd _
    unfold collapseWs at hd
    rw [if_pos hws] at hd
    simpa using hd
  | case3 c hws =>
    intro d hd hwd
    unfold collapseWs at hd
    rw [if_neg hws] at hd
    have : d = c := by simpa using hd
    subst this
    exact absurd hwd (by simpa using hws)
  | case4 c1 c2 rest hb ih =>
    intro d hd hwd
    unfold collapseWs at hd
    rw [if_pos hb] at hd
    exact ih d hd hwd
  | case5 c1 c2 rest hb ih =>
    intro d hd hwd
    unfold collapseWs at hd
    rw [if_neg hb] at hd
    rcases List.mem_cons.mp hd with h | h
    · subst h
      by_cases h1 : isWs c1
      · rw [if_pos h1]
      · rw [if_neg h1] at hwd ⊢
        exact absurd hwd (by simpa using h1)
    · exact ih d h hwd

theorem collapseWs_chain (s : PyStr) :
    List.Chain' (fun a b => ¬(isWs a = true ∧ isWs b = true)) (collapseWs s) := by
  induction s using collapseWs.induct with
  | case1 => simp [collapseWs]
  | case2 c hws =>
    unfold collapseWs
    rw [if_pos hws]
    simp
  | case3 c hws =>
    unfold collapseWs
    rw [if_neg hws]
    simp
  | case4 c1 c2 rest hb ih =>
    unfold collapseWs
    rw [if_pos hb]
    exact ih
  | case5 c1 c2 rest hb ih =>
    unfold collapseWs
    rw [if_neg hb]
    rw [List.chain'_cons']
    refine ⟨?_, ih⟩
    intro y hy
    rw [collapseWs_head c2 rest] at hy
    cases hy
    have hb2 : ¬(isWs c1 = true ∧ isWs c2 = true) := by
      intro ⟨u1, u2⟩
      rw [u1, u2] at hb
      exact hb rfl
    by_cases h1 : isWs c1
    · rw [if_pos h1]
      have h2 : isWs c2 = false := by
        rcases Bool.eq_false_or_eq_true (isWs c2) with h | h
        · exact absurd ⟨h1, h⟩ hb2
        · exact h
      rw [if_neg (by simp [h2])]
      intro ⟨_, u⟩
      rw [u] at h2
      cases h2
    · rw [if_neg h1]
      intro ⟨u, _⟩
      exact h1 u

theorem collapseWs_fix (s : PyStr) (hall : ∀ c ∈ s, isWs c = true → c = ' ')
    (hch : List.Chain' (fun a b => ¬(isWs a = true ∧ isWs b = true)) s) :
    collapseWs s = s := by
  induction s using collapseWs.induct with
  | case1 => rfl
  | case2 c hws =>
    unfold collapseWs
    rw [if_pos hws]
    rw [hall c (by simp) hws]
  | case3 c hws =>
    unfold collapseWs
    rw [if_neg hws]
  | case4 c1 c2 rest hb ih =>
    exfalso
    rw [List.chain'_cons] at hch
    rcases Bool.and_eq_true _ _ |>.mp hb with ⟨u1, u2⟩
    exact hch.1 ⟨by simpa using u1, by simpa using u2⟩
  | case5 c1 c2 rest hb ih =>
    unfold collapseWs
    rw [if_neg hb]
    rw [List.chain'_cons] at hch
    have htail := ih (fun c hc hw => hall c (List.mem_cons_of_mem _ hc) hw) hch.2
    rw [htail]
    by_cases h1 : isWs c1
    · rw [if_pos h1, hall c1 (by simp) h1]
    · rw [if_neg h1]

theorem collapseWs_last (s : PyStr) :
    ∀ c, s.getLast? = some c → isWs c = false → (collapseWs s).getLast? = some c := by
  induction s using collapseWs.induct with
  | case1 => intro c hc; cases hc
  | case2 c hws =>
    intro d hd hwd
    have hcd : c = d := by simpa using hd
    rw [← hcd, hws] at hwd
    simp at hwd
  | case3 c hws =>
    intro d hd _
    unfold collapseWs
    rw [if_neg hws]
    exact hd
  | case4 c1 c2 rest hb ih =>
    intro d hd hwd
    unfold collapseWs
    rw [if_pos hb]
    exact ih d (by rwa [List.getLast?_cons_cons] at hd) hwd
  | case5 c1 c2 rest hb ih =>
    intro d hd hwd
    unfold collapseWs
    rw [if_neg hb]
    have htail := ih d (by rwa [List.getLast?_cons_cons] at hd) hwd
    rcases List.exists_cons_of_ne_nil (collapseWs_ne_nil c2 rest) with ⟨y, ys, hys⟩
    rw [hys] at htail ⊢
    rw [List.getLast?_cons_cons]
    exact htail

theorem lowerStr_collapseWs (s : PyStr) :
    collapseWs (lowerStr s) = lowerStr (collapseWs s) := by
  induction s using collapseWs.induct with
  | case1 => rfl
  | case2 c hws =>
    show collapseWs [lowerChar c] = lowerStr (collapseWs [c])
    unfold collapseWs
    rw [if_pos (by rwa [isWs_lowerChar]), if_pos hws]
    have : lowerChar ' ' = ' ' := rfl
    simp [lowerStr, this]
  | case3 c hws =>
    show collapseWs [lowerChar c] = lowerStr (collapseWs [c])
    unfold collapseWs
    rw [if_neg (by rwa [isWs_lowerChar]), if_neg hws]
    rfl
  | case4 c1 c2 rest hb ih =>
    show collapseWs (lowerChar c1 :: lowerChar c2 :: lowerStr rest) = _
    have ih2 : collapseWs (lowerChar c2 :: lowerStr rest) = lowerStr (collapseWs (c2 :: rest)) := ih
    unfold collapseWs
    rw [if_pos (by rwa [isWs_lowerChar, isWs_lowerChar]), if_pos hb]
    exact ih2
  | case5 c1 c2 rest hb ih =>
    show collapseWs (lowerChar c1 :: lowerChar c2 :: lowerStr rest) = _
    have ih2 : collapseWs (lowerChar c2 :: lowerStr rest) = lowerStr (collapseWs (c2 :: rest)) := ih
    unfold collapseWs
    rw [if_neg (by rwa [isWs_lowerChar, isWs_lowerChar]), if_neg hb]
    rw [ih2]
    by_cases h1 : isWs c1
    · rw [if_pos (by rwa [isWs_lowerChar]), if_pos h1]
      rfl
    · rw [if_neg (by rwa [isWs_lowerChar]), if_neg h1]
      rfl

theorem lowerStr_stripWs (s : PyStr) : stripWs (lowerStr s) = lowerStr (stripWs s) := by
  unfold stripWs lowerStr
  rw [List.dropWhile_map, isWs_funComp, ← List.map_reverse, List.dropWhile_map, isWs_funComp,
    ← List.map_reverse]

theorem lowerStr_idem (s : PyStr) : lowerStr (lowerStr s) = lowerStr s := by
  unfold lowerStr
  rw [List.map_map]
  exact List.map_congr_left (fun a _ => lowerChar_idem a)

theorem nnStr_idem (s : PyStr) : nnStr (nnStr s) = nnStr s := by
  have hall : ∀ c ∈ nnStr s, isWs c = true → c = ' ' := by
    intro c hc hw
    unfold nnStr lowerStr at hc
    rcases List.mem_map.mp hc with ⟨a, ha, rfl⟩
    rw [isWs_lowerChar] at hw
    rw [collapseWs_allSpace _ a ha hw]
    rfl
  have hch : List.Chain' (fun a b => ¬(isWs a = true ∧ isWs b = true)) (nnStr s) := by
    unfold nnStr lowerStr
    rw [List.chain'_map]
    have := collapseWs_chain (stripWs s)
    exact this.imp (fun a b h => by rwa [isWs_lowerChar, isWs_lowerChar])
  have hhead : ∀ c, (nnStr s).head? = some c → isWs c = false := by
    intro c hc
    unfold nnStr lowerStr at hc
    rw [List.head?_map] at hc
    cases hu : (collapseWs (stripWs s)).head? with
    | none => rw [hu] at hc; cases hc
    | some a =>
      rw [hu] at hc
      cases hc
      rw [isWs_lowerChar]
      cases hs : stripWs s with
      | nil => rw [hs] at hu; cases hu
      | cons x t =>
        rw [hs, collapseWs_head] at hu
        have ha : a = if isWs x then ' ' else x := by cases hu; rfl
        by_cases hx : isWs x
        · rw [ha, if_pos hx]
          have := stripWs_head s x (by rw [hs]; rfl)
          rw [hx] at this
          cases this
        · rw [ha, if_neg hx]
          exact Bool.eq_false_iff.mpr hx
  have hlast : ∀ c, (nnStr s).getLast? = some c → isWs c = false := by
    intro c hc
    unfold nnStr lowerStr at hc
    rw [List.getLast?_map] at hc
    cases hu : (collapseWs (stripWs s)).getLast? with
    | none => rw [hu] at hc; cases hc
    | some a =>
      rw [hu] at hc
      cases hc
      rw [isWs_lowerChar]
      cases hs : (stripWs s).getLast? with
      | none =>
        have : stripWs s = [] := by
          cases hss : stripWs s with
          | nil => rfl
          | cons x t =>
            rw [hss, List.getLast?_cons] at hs
            simp at hs
        rw [this] at hu
        cases hu
      | some x =>
        have hxw : isWs x = false := stripWs_last s x hs
        have := collapseWs_last (stripWs s) x hs hxw
        rw [this] at hu
        cases hu
        exact hxw
  show lowerStr (collapseWs (stripWs (nnStr s))) = nnStr s
  rw [stripWs_eq_self _ hhead hlast, collapseWs_fix _ hall hch]
  show lowerStr (lowerStr (collapseWs (stripWs s))) = _
  rw [lowerStr_idem]
  rfl

theorem findKw_eq_any (low : PyStr) (kws : List PyStr) :
    findKw low kws = kws.any (fun kw => strContains low (lowerStr kw)) := by
  induction kws with
  | nil => rfl
  | cons kw rest ih =>
    unfold findKw
    by_cases h : strContains low (lowerStr kw)
    · rw [if_pos h]
      simp [h]
    · rw [if_neg h]
      simp [Bool.eq_false_iff.mpr h, ih]

theorem findColGo_eq_find (kws : List PyStr) (cs : List PyStr) :
    findColGo kws cs = cs.find? (fun c => findKw (lowerStr (stripWs c)) kws) := by
  induction cs with
  | nil => rfl
  | cons c rest ih =>
    unfold findColGo
    by_cases h : findKw (lowerStr (stripWs c)) kws
    · rw [if_pos h]
      exact (List.find?_cons_of_pos rest h).symm
    · rw [if_neg h, ih]
      exact (List.find?_cons_of_neg rest (by simpa using h)).symm

/-- Claim C7: the schema resolver returns the first column, in column
order, whose stripped lowercased label contains any keyword
(case-insensitively via lowering both sides), and None when no column
matches; the List.find? characterization shows the result is determined by
column order with first match winning, and the resolver is a pure function
of its inputs (the model has no mutation). -/
theorem claim_C7_schema_resolver (cols : List PyStr) (keywords : List PyStr) :
    find_col_by_keywords (some cols) keywords =
      cols.find? (fun c => keywords.any (fun kw => strContains (lowerStr (stripWs c)) (lowerStr kw))) ∧
    find_col_by_keywords none keywords = none := by
  constructor
  · show findColGo keywords cols = _
    rw [findColGo_eq_find]
    have hfun : (fun c => findKw (lowerStr (stripWs c)) keywords) =
        (fun c => keywords.any (fun kw => strContains (lowerStr (stripWs c)) (lowerStr kw))) :=
      funext (fun c => findKw_eq_any _ _)
    rw [hfun]
  · rfl

theorem extractNumTok_eq_none (s : PyStr) (h : ∀ c ∈ s, c.isDigit = false) :
    extractNumTok s = none := by
  induction s with
  | nil => rfl
  | cons c t ih =>
    unfold extractNumTok
    rw [h c (by simp)]
    simp only [Bool.false_eq_true, if_false]
    exact ih (fun d hd => h d (List.mem_cons_of_mem _ hd))

/-- Claim C6: turnout-percentage parsing maps 54.3 percent to 54.3, the
comma form to 54.3, the N-slash-A form to null; and any wholly digit-free
string coerces to null.  The model is a total function, reflecting that the
cleaning chain raises no exception for any string input. -/
theorem claim_C6_turnout_parsing :
    parseTurnoutPct (.vstr (ps "54.3%")) = some (mkRat 543 10) ∧
    parseTurnoutPct (.vstr (ps "54,3")) = some (mkRat 543 10) ∧
    parseTurnoutPct (.vstr (ps "N/A")) = none ∧
    ∀ s : PyStr, (∀ c ∈ s, c.isDigit = false) → parseTurnoutPct (.vstr s) = none := by
  refine ⟨by decide, by decide, by decide, ?_⟩
  intro s h
  unfold parseTurnoutPct
  rw [extractNumTok_eq_none _ ?_]
  · rfl
  · intro c hc
    rcases List.mem_map.mp (by simpa [mapChar] using hc) with ⟨a, ha, rfl⟩
    have ha2 : a ∈ pyStrv (Value.vstr s) := List.mem_of_mem_filter ha
    by_cases hcomma : a = ','
    · rw [if_pos hcomma]
      decide
    · rw [if_neg hcomma]
      exact h a ha2

theorem claim_C6_turnout_parsing_witness :
    (∀ c ∈ ps "n/a%", c.isDigit = false) ∧ parseTurnoutPct (.vstr (ps "n/a%")) = none :=
  ⟨by decide, claim_C6_turnout_parsing.2.2.2 (ps "n/a%") (by decide)⟩

/-- Claim C3 counterexample: the composite key built from year 2015 and a
missing district id is the string 2015__None, not 2015__ with an empty id
component as the claim states. -/
theorem claim_C3_counterexample :
    fedGeoKey (.vint 2015) .vnull = ps "2015__None" ∧
    ¬ fedGeoKey (.vint 2015) .vnull = ps "2015__" ∧
    gpkgGeoKey (.vint 2015) .vnull = ps "2015__None" ∧
    ¬ gpkgGeoKey (.vint 2015) .vnull = ps "2015__" := by
  decide

/-- Claim C3 (amended): composite keys are built as
normalized-year ++ two underscores ++ str(id).strip(); a missing year
component normalizes to the empty string, but a missing id component
renders as the string None (str(None)), and a literal nan string id in the
turnout loader is first replaced by missing and also renders None.  The key
is a total string-valued function of the pair, hence always non-null and
deterministic. -/
theorem claim_C3_composite_key (y i : Value) :
    gpkgGeoKey .vnull i = ps "__" ++ stripWs (pyStrv i) ∧
    gpkgGeoKey .vnan i = ps "__" ++ stripWs (pyStrv i) ∧
    fedGeoKey .vnull i = ps "__" ++ stripWs (pyStrv (fedRidingNumReplace i)) ∧
    fedGeoKey .vnan i = ps "__" ++ stripWs (pyStrv (fedRidingNumReplace i)) ∧
    gpkgGeoKey y .vnull = safeStr y ++ ps "__None" ∧
    fedGeoKey y .vnull = safeStrIntlike y ++ ps "__None" ∧
    fedGeoKey y (.vstr (ps "nan")) = safeStrIntlike y ++ ps "__None" ∧
    fedGeoKey y (.vstr (ps "None")) = safeStrIntlike y ++ ps "__None" := by
  refine ⟨rfl, rfl, rfl, rfl, ?_, ?_, ?_, ?_⟩ <;>
  · show _ ++ _ ++ _ = _ ++ _
    rw [List.append_assoc]
    rfl

/-- Claim C5 counterexample: normalize_one is not idempotent.  An internal
run of three spaces collapses to two after one pass (the str.replace of a
double space is non-overlapping) and only to one after a second pass. -/
theorem claim_C5_counterexample :
    ¬ normalize_one (.vstr (normalize_one (.vstr (ps "a   b")))) =
      normalize_one (.vstr (ps "a   b")) := by
  decide

/-- Claim C5 (amended): normalize_names is idempotent for every input, but
normalize_one is not idempotent in general: internal whitespace runs of
three or more spaces shrink by only one double-space pair per non-overlapping
replace pass. -/
theorem claim_C5_normalizer_idempotence :
    (∀ v : Value, normalize_names (normalize_names v) = normalize_names v) ∧
    ¬(∀ v : Value, normalize_one (.vstr (normalize_one v)) = normalize_one v) := by
  constructor
  · intro v
    have key : ∀ u : PyStr, normalize_names (Value.vstr (nnStr u)) = Value.vstr (nnStr u) := by
      intro u
      show Value.vstr (nnStr (nnStr u)) = Value.vstr (nnStr u)
      rw [nnStr_idem]
    cases v <;> exact key _
  · intro h
    exact absurd (h (.vstr (ps "a   b"))) (by decide)

theorem insertBy_perm {α : Type} (le : α → α → Bool) (a : α) (l : List α) :
    (insertBy le a l).Perm (a :: l) := by
  induction l with
  | nil => exact List.Perm.refl _
  | cons b t ih =>
    unfold insertBy
    by_cases h : le a b
    · rw [if_pos h]
    · rw [if_neg h]
      exact (ih.cons b).trans (List.Perm.swap a b t)

theorem sortBy_perm {α : Type} (le : α → α → Bool) (l : List α) : (sortBy le l).Perm l := by
  induction l with
  | nil => exact List.Perm.refl _
  | cons a t ih =>
    show (insertBy le a (sortBy le t)).Perm (a :: t)
    exact (insertBy_perm le a _).trans (ih.cons a)

theorem length_sortBy {α : Type} (le : α → α → Bool) (l : List α) :
    (sortBy le l).length = l.length := (sortBy_perm le l).length_eq

theorem mem_sortBy {α : Type} (le : α → α → Bool) (l : List α) (a : α) :
    a ∈ sortBy le l ↔ a ∈ l := (sortBy_perm le l).mem_iff

theorem nodup_sortBy {α : Type} (le : α → α → Bool) (l : List α) (h : l.Nodup) :
    (sortBy le l).Nodup := ((sortBy_perm le l).nodup_iff).mpr h

theorem lookup_cons_self {β : Type} (c : PyStr) (v : β) (t : List (PyStr × β)) :
    List.lookup c ((c, v) :: t) = some v := by
  simp [List.lookup]

theorem lookup_rowSet_self (r : Row) (c : PyStr) (v : Value) :
    List.lookup c (rowSet r c v) = some v := by
  induction r with
  | nil => exact lookup_cons_self c v []
  | cons e t ih =>
    rcases e with ⟨c0, v0⟩
    unfold rowSet
    by_cases h : c0 = c
    · rw [if_pos h]
      exact lookup_cons_self c v t
    · rw [if_neg h]
      rw [List.lookup_cons]
      have : (c == c0) = false := by
        rw [beq_eq_false_iff_ne]
        exact fun hc => h hc.symm
      rw [this]
      exact ih

theorem lookup_rowSet_ne (r : Row) (c c2 : PyStr) (v : Value) (h : c ≠ c2) :
    List.lookup c2 (rowSet r c v) = List.lookup c2 r := by
  induction r with
  | nil =>
    show List.lookup c2 [(c, v)] = none
    rw [List.lookup_cons]
    rw [show (c2 == c) = false from beq_eq_false_iff_ne.mpr (fun hc => h hc.symm)]
    rfl
  | cons e t ih =>
    rcases e with ⟨c0, v0⟩
    unfold rowSet
    by_cases h0 : c0 = c
    · rw [if_pos h0]
      rw [List.lookup_cons, List.lookup_cons]
      rw [show (c2 == c) = false from beq_eq_false_iff_ne.mpr (fun hc => h hc.symm)]
      rw [h0]
      rw [show (c2 == c) = false from beq_eq_false_iff_ne.mpr (fun hc => h hc.symm)]
    · rw [if_neg h0]
      rw [List.lookup_cons, List.lookup_cons]
      cases hb : (c2 == c0) with
      | true => rfl
      | false => exact ih

theorem rowGetD_rowSet_self (r : Row) (c : PyStr) (v d : Value) :
    rowGetD (rowSet r c v) c d = v := by
  unfold rowGetD
  rw [lookup_rowSet_self]
  rfl

theorem rowGetD_rowSet_ne (r : Row) (c c2 : PyStr) (v d : Value) (h : c ≠ c2) :
    rowGetD (rowSet r c v) c2 d = rowGetD r c2 d := by
  unfold rowGetD
  rw [lookup_rowSet_ne r c c2 v h]

theorem mem_unionGeoms (a : Nat) (rs : List Row) :
    a ∈ unionGeoms rs ↔ ∃ r ∈ rs, a ∈ geomAtoms r := by
  induction rs with
  | nil =>
    constructor
    · intro h
      exact absurd h (List.not_mem_nil a)
    · rintro ⟨r, hr, _⟩
      exact absurd hr (List.not_mem_nil r)
  | cons r t ih =>
    show a ∈ geomAtoms r ∪ unionGeoms t ↔ _
    rw [List.mem_union_iff, ih]
    constructor
    · rintro (h | ⟨r0, hr0, ha⟩)
      · exact ⟨r, List.mem_cons_self r t, h⟩
      · exact ⟨r0, List.mem_cons_of_mem r hr0, ha⟩
    · rintro ⟨r0, hr0, ha⟩
      rcases List.mem_cons.mp hr0 with h | h
      · subst h
        exact Or.inl ha
      · exact Or.inr ⟨r0, h, ha⟩

theorem lookup_cons_ne {β : Type} (c c2 : PyStr) (v : β) (t : List (PyStr × β)) (h : c2 ≠ c) :
    List.lookup c2 ((c, v) :: t) = List.lookup c2 t := by
  rw [List.lookup_cons]
  rw [show (c2 == c) = false from beq_eq_false_iff_ne.mpr h]

theorem lookup_append_left {β : Type} (l1 l2 : List (PyStr × β)) (c : PyStr) (v : β)
    (h : List.lookup c l1 = some v) : List.lookup c (l1 ++ l2) = some v := by
  induction l1 with
  | nil => cases h
  | cons e t ih =>
    rcases e with ⟨c0, v0⟩
    rw [List.cons_append]
    rw [List.lookup_cons] at h ⊢
    cases hb : (c == c0) with
    | true =>
      rw [hb] at h
      exact h
    | false =>
      rw [hb] at h
      exact ih h

theorem lookup_append_right {β : Type} (l1 l2 : List (PyStr × β)) (c : PyStr)
    (h : List.lookup c l1 = none) : List.lookup c (l1 ++ l2) = List.lookup c l2 := by
  induction l1 with
  | nil => rfl
  | cons e t ih =>
    rcases e with ⟨c0, v0⟩
    rw [List.cons_append]
    rw [List.lookup_cons] at h ⊢
    cases hb : (c == c0) with
    | true =>
      rw [hb] at h
      exact Option.noConfusion h
    | false =>
      rw [hb] at h
      exact ih h

theorem lookup_eq_none_not_mem {β : Type} (l : List (PyStr × β)) (c : PyStr)
    (h : c ∉ l.map Prod.fst) : List.lookup c l = none := by
  induction l with
  | nil => rfl
  | cons e t ih =>
    rcases e with ⟨c0, v0⟩
    rw [List.lookup_cons]
    have hne : c ≠ c0 := fun hc => h (by rw [hc]; exact List.mem_cons_self _ _)
    rw [show (c == c0) = false from beq_eq_false_iff_ne.mpr hne]
    exact ih (fun hc => h (List.mem_cons_of_mem _ hc))

theorem lookup_const_of_mem {β : Type} (l : List (PyStr × β)) (c : PyStr) (v : β)
    (hall : ∀ e ∈ l, e.2 = v) (hmem : c ∈ l.map Prod.fst) : List.lookup c l = some v := by
  induction l with
  | nil => exact absurd hmem (List.not_mem_nil c)
  | cons e t ih =>
    rcases e with ⟨c0, v0⟩
    rw [List.lookup_cons]
    cases hb : (c == c0) with
    | true =>
      have : v0 = v := hall (c0, v0) (List.mem_cons_self _ _)
      rw [this]
    | false =>
      refine ih (fun e he => hall e (List.mem_cons_of_mem _ he)) ?_
      rcases List.mem_cons.mp hmem with h | h
      · exact absurd (beq_iff_eq.mpr h) (by rw [hb]; simp)
      · exact h

theorem lookup_mergeLeftPart_on (rcols : List PyStr) (onc : PyStr) (lcols : List PyStr) (lr : Row)
    (hon : onc ∈ lcols) (hx : ∀ c : PyStr, ¬ c ++ ps "_x" = onc) :
    List.lookup onc (mergeLeftPart rcols onc lcols lr) = some (rowGetD lr onc .vnan) := by
  induction lcols with
  | nil => exact absurd hon (List.not_mem_nil onc)
  | cons c t ih =>
    show List.lookup onc ((leftOutName rcols onc c, rowGetD lr c .vnan) :: mergeLeftPart rcols onc t lr) = _
    by_cases hc : c = onc
    · have h0 : leftOutName rcols onc c = c := by
        unfold leftOutName
        rw [if_neg (fun hand => hand.1 hc)]
      rw [h0, hc]
      exact lookup_cons_self onc _ _
    · have hne : onc ≠ leftOutName rcols onc c := by
        unfold leftOutName
        split
        · exact fun hc2 => hx c hc2.symm
        · exact fun hc2 => hc hc2.symm
      rw [lookup_cons_ne _ _ _ _ hne]
      exact ih (by rcases List.mem_cons.mp hon with h | h; exact absurd h.symm hc; exact h)

theorem length_le_flatMap {α β : Type} (f : α → List β) (l : List α) (h : ∀ a, f a ≠ []) :
    l.length ≤ (l.flatMap f).length := by
  induction l with
  | nil => simp
  | cons a t ih =>
    rw [List.flatMap_cons, List.length_append, List.length_cons]
    have := List.length_pos.mpr (h a)
    omega

theorem mergeRowsFor_ne_nil (l r : DF) (onc : PyStr) (lr : Row) :
    mergeRowsFor l r onc lr ≠ [] := by
  unfold mergeRowsFor
  split
  · simp
  · rename_i hne
    intro hnil
    exact hne (by rw [List.map_eq_nil_iff.mp hnil]; rfl)

/-- The merge output never loses rows: each left row contributes at least
one output row. -/
theorem mergeDF_length_ge (l r : DF) (onc : PyStr) :
    l.rows.length ≤ (mergeDF l r onc).rows.length :=
  length_le_flatMap _ l.rows (mergeRowsFor_ne_nil l r onc)

/-- Every merge output row carries the key value of the left row that
produced it (the join column is not suffixed). -/
theorem lookup_merged_on (l r : DF) (onc : PyStr) (hon : onc ∈ l.cols)
    (hx : ∀ c : PyStr, ¬ c ++ ps "_x" = onc) (lr : Row) (m : Row)
    (hm : m ∈ mergeRowsFor l r onc lr) :
    rowGetD m onc .vnan = rowGetD lr onc .vnan := by
  unfold mergeRowsFor at hm
  split at hm
  · rcases List.mem_singleton.mp hm with rfl
    unfold rowGetD
    rw [lookup_append_left _ _ _ _ (lookup_mergeLeftPart_on r.cols onc l.cols lr hon hx)]
    rfl
  · rcases List.mem_map.mp hm with ⟨rr, hrr, rfl⟩
    unfold rowGetD
    rw [lookup_append_left _ _ _ _ (lookup_mergeLeftPart_on r.cols onc l.cols lr hon hx)]
    rfl

/-- Every left key value appears among the merge output rows. -/
theorem mergeDF_key_surj (l r : DF) (onc : PyStr) (hon : onc ∈ l.cols)
    (hx : ∀ c : PyStr, ¬ c ++ ps "_x" = onc) :
    ∀ lr ∈ l.rows, ∃ m ∈ (mergeDF l r onc).rows,
      rowGetD m onc .vnan = rowGetD lr onc .vnan := by
  intro lr hlr
  rcases List.exists_mem_of_ne_nil _ (mergeRowsFor_ne_nil l r onc lr) with ⟨m, hm⟩
  refine ⟨m, ?_, lookup_merged_on l r onc hon hx lr m hm⟩
  show m ∈ l.rows.flatMap (mergeRowsFor l r onc)
  exact List.mem_flatMap.mpr ⟨lr, hlr, hm⟩

/-- A merge output row whose key has no match on the right side carries NaN
in every right-derived column. -/
theorem mergeDF_unmatched_null (l r : DF) (onc : PyStr) (hon : onc ∈ l.cols)
    (hx : ∀ c : PyStr, ¬ c ++ ps "_x" = onc)
    (hdisj : ∀ c ∈ r.cols, ¬ c = onc →
        rightOutName l.cols c ∉ l.cols.map (leftOutName r.cols onc)) :
    ∀ m ∈ (mergeDF l r onc).rows,
      r.rows.filter (fun rr => rowGetD rr onc .vnan == rowGetD m onc .vnan) = [] →
      ∀ c ∈ r.cols, ¬ c = onc → rowGetD m (rightOutName l.cols c) .vnan = .vnan := by
  intro m hm hnom c hc hcon
  rcases List.mem_flatMap.mp hm with ⟨lr, hlr, hmlr⟩
  have hkey := lookup_merged_on l r onc hon hx lr m hmlr
  rw [hkey] at hnom
  have hms : matchesFor r onc lr = [] := hnom
  unfold mergeRowsFor at hmlr
  rw [hms] at hmlr
  simp only [List.isEmpty_nil, if_true] at hmlr
  rcases List.mem_singleton.mp hmlr with rfl
  have hnone : List.lookup (rightOutName l.cols c) (mergeLeftPart r.cols onc l.cols lr) = none := by
    apply lookup_eq_none_not_mem
    unfold mergeLeftPart
    rw [List.map_map]
    intro hmem
    rcases List.mem_map.mp hmem with ⟨c0, hc0, hceq⟩
    exact hdisj c hc hcon (List.mem_map.mpr ⟨c0, hc0, hceq⟩)
  unfold rowGetD
  rw [lookup_append_right _ _ _ hnone]
  rw [lookup_const_of_mem _ _ Value.vnan ?hall ?hmem]
  · rfl
  case hall =>
    intro e he
    unfold mergeRightNull at he
    rcases List.mem_map.mp he with ⟨c0, hc0, rfl⟩
    rfl
  case hmem =>
    unfold mergeRightNull
    rw [List.map_map]
    refine List.mem_map.mpr ⟨c, ?_, rfl⟩
    refine List.mem_filter.mpr ⟨hc, ?_⟩
    rw [show (c == onc) = false from beq_eq_false_iff_ne.mpr hcon]
    rfl

theorem rowKey_cons_self (key : PyStr) (kv : Value) (rest : Row) :
    rowKey key ((key, kv) :: rest) = kv := by
  unfold rowKey rowGetD
  rw [lookup_cons_self]
  rfl

theorem dissolveRows_keys (key : PyStr) (attrs : List PyStr) (rows : List Row) :
    (dissolveRows key attrs rows).map (rowKey key) = sortBy valLe (colKeys key rows).dedup := by
  unfold dissolveRows
  rw [List.map_map]
  refine (List.map_congr_left ?_).trans (List.map_id _)
  intro k hk
  exact rowKey_cons_self key k _

theorem manualUnionRows_keys (key : PyStr) (rows : List Row) :
    (manualUnionRows key rows).map (rowKey key) = sortBy valLe (colKeys key rows).dedup := by
  unfold manualUnionRows
  rw [List.map_map]
  refine (List.map_congr_left ?_).trans (List.map_id _)
  intro k hk
  show rowKey key (rowSet _ key k) = k
  unfold rowKey
  rw [rowGetD_rowSet_self]

theorem geomAtoms_dissolveRows (key : PyStr) (attrs : List PyStr) (rows : List Row)
    (hkey : ¬ key = ps "geometry") :
    ∀ r ∈ dissolveRows key attrs rows,
      geomAtoms r = unionGeoms (rows.filter (fun r0 => rowKey key r0 == rowKey key r)) := by
  intro r hr
  unfold dissolveRows at hr
  rcases List.mem_map.mp hr with ⟨k, hk, rfl⟩
  rw [rowKey_cons_self]
  unfold geomAtoms rowGetD
  rw [lookup_cons_ne _ _ _ _ (fun h => hkey h.symm), lookup_cons_self]
  rfl

theorem manualRow_props (key : PyStr) (hkey : ¬ key = ps "geometry") (r0 : Row)
    (g : List Nat) (k : Value) :
    rowKey key (rowSet (rowSet r0 (ps "geometry") (.vgeom g)) key k) = k ∧
    geomAtoms (rowSet (rowSet r0 (ps "geometry") (.vgeom g)) key k) = g := by
  constructor
  · unfold rowKey
    rw [rowGetD_rowSet_self]
  · unfold geomAtoms rowGetD
    rw [lookup_rowSet_ne _ _ _ _ (fun h => hkey h), lookup_rowSet_self]
    rfl

theorem geomAtoms_manualUnionRows (key : PyStr) (rows : List Row)
    (hkey : ¬ key = ps "geometry") :
    ∀ r ∈ manualUnionRows key rows,
      geomAtoms r = unionGeoms (rows.filter (fun r0 => rowKey key r0 == rowKey key r)) := by
  intro r hr
  unfold manualUnionRows at hr
  rcases List.mem_map.mp hr with ⟨k, hk, rfl⟩
  dsimp only
  rw [(manualRow_props key hkey _ _ k).1, (manualRow_props key hkey _ _ k).2]

/-- Claim C2: after the deduplication step (dissolve by composite key, and
likewise the per-key manual union fallback used when dissolve raises) the
geometry set has exactly one row per distinct composite key: its key list
is duplicate-free, its row count equals the number of distinct input keys,
its keys are exactly the input keys, and the polygon set of each output row
is the union of the polygon sets of the input rows sharing its key. -/
theorem claim_C2_dedup_invariant (key : PyStr) (attrs : List PyStr) (rows : List Row)
    (hkey : ¬ key = ps "geometry") :
    ((dissolveRows key attrs rows).map (rowKey key)).Nodup ∧
    (dissolveRows key attrs rows).length = (colKeys key rows).dedup.length ∧
    (∀ k, k ∈ (dissolveRows key attrs rows).map (rowKey key) ↔ k ∈ colKeys key rows) ∧
    (∀ r ∈ dissolveRows key attrs rows, ∀ a : Nat,
       a ∈ geomAtoms r ↔ ∃ r0 ∈ rows, rowKey key r0 = rowKey key r ∧ a ∈ geomAtoms r0) ∧
    ((manualUnionRows key rows).map (rowKey key)).Nodup ∧
    (manualUnionRows key rows).length = (colKeys key rows).dedup.length ∧
    (∀ k, k ∈ (manualUnionRows key rows).map (rowKey key) ↔ k ∈ colKeys key rows) ∧
    (∀ r ∈ manualUnionRows key rows, ∀ a : Nat,
       a ∈ geomAtoms r ↔ ∃ r0 ∈ rows, rowKey key r0 = rowKey key r ∧ a ∈ geomAtoms r0) := by
  have hlen1 : (dissolveRows key attrs rows).length = (colKeys key rows).dedup.length := by
    have h := congrArg List.length (dissolveRows_keys key attrs rows)
    rw [List.length_map, length_sortBy] at h
    exact h
  have hlen2 : (manualUnionRows key rows).length = (colKeys key rows).dedup.length := by
    have h := congrArg List.length (manualUnionRows_keys key rows)
    rw [List.length_map, length_sortBy] at h
    exact h
  have hgeom : ∀ (d : List Row),
      (∀ r ∈ d, geomAtoms r = unionGeoms (rows.filter (fun r0 => rowKey key r0 == rowKey key r))) →
      ∀ r ∈ d, ∀ a : Nat,
        a ∈ geomAtoms r ↔ ∃ r0 ∈ rows, rowKey key r0 = rowKey key r ∧ a ∈ geomAtoms r0 := by
    intro d hd r hr a
    rw [hd r hr, mem_unionGeoms]
    constructor
    · rintro ⟨r0, hr0, ha⟩
      rcases List.mem_filter.mp hr0 with ⟨h1, h2⟩
      exact ⟨r0, h1, beq_iff_eq.mp h2, ha⟩
    · rintro ⟨r0, h1, heq, ha⟩
      exact ⟨r0, List.mem_filter.mpr ⟨h1, beq_iff_eq.mpr heq⟩, ha⟩
  refine ⟨?_, hlen1, ?_, hgeom _ (geomAtoms_dissolveRows key attrs rows hkey),
          ?_, hlen2, ?_, hgeom _ (geomAtoms_manualUnionRows key rows hkey)⟩
  · rw [dissolveRows_keys]
    exact nodup_sortBy _ _ (List.nodup_dedup _)
  · intro k
    rw [dissolveRows_keys, mem_sortBy, List.mem_dedup]
  · rw [manualUnionRows_keys]
    exact nodup_sortBy _ _ (List.nodup_dedup _)
  · intro k
    rw [manualUnionRows_keys, mem_sortBy, List.mem_dedup]

theorem claim_C2_dedup_invariant_witness :
    (dissolveRows (ps "geo_key") [ps "year"] rowsDupEx).length =
      (colKeys (ps "geo_key") rowsDupEx).dedup.length ∧
    (manualUnionRows (ps "geo_key") rowsDupEx).length =
      (colKeys (ps "geo_key") rowsDupEx).dedup.length ∧
    (1 ∈ geomAtoms ((dissolveRows (ps "geo_key") [ps "year"] rowsDupEx).headD []) ↔
      ∃ r0 ∈ rowsDupEx,
        rowKey (ps "geo_key") r0 =
          rowKey (ps "geo_key") ((dissolveRows (ps "geo_key") [ps "year"] rowsDupEx).headD []) ∧
        1 ∈ geomAtoms r0) :=
  ⟨(claim_C2_dedup_invariant (ps "geo_key") [ps "year"] rowsDupEx (by decide)).2.1,
   (claim_C2_dedup_invariant (ps "geo_key") [ps "year"] rowsDupEx (by decide)).2.2.2.2.2.1,
   (claim_C2_dedup_invariant (ps "geo_key") [ps "year"] rowsDupEx (by decide)).2.2.2.1
     ((dissolveRows (ps "geo_key") [ps "year"] rowsDupEx).headD []) (by decide) 1⟩

theorem filter_key_subsingleton {α β : Type} [BEq β] [LawfulBEq β] (f : α → β) (l : List α)
    (h : (l.map f).Nodup) (k : β) : (l.filter (fun a => f a == k)).length ≤ 1 := by
  induction l with
  | nil => simp
  | cons a t ih =>
    rw [List.map_cons, List.nodup_cons] at h
    rw [List.filter_cons]
    by_cases hk : (f a == k) = true
    · rw [if_pos hk]
      have hnil : t.filter (fun x => f x == k) = [] := by
        rw [List.filter_eq_nil_iff]
        intro b hb hfb
        exact h.1 (by
          rw [show f a = f b from by rw [beq_iff_eq.mp hk, beq_iff_eq.mp hfb]]
          exact List.mem_map_of_mem f hb)
      rw [hnil]
      simp
    · rw [if_neg hk]
      exact Nat.le_trans (ih h.2) (Nat.le_refl 1)

theorem find?_eq_head_filter {α : Type} (p : α → Bool) (l : List α) :
    l.find? p = (l.filter p).head? := by
  induction l with
  | nil => rfl
  | cons a t ih =>
    rw [List.filter_cons]
    by_cases h : p a
    · rw [List.find?_cons_of_pos _ h, if_pos h]
      rfl
    · rw [List.find?_cons_of_neg _ (by simpa using h), if_neg h]
      exact ih

theorem munRowsFor_eq_of_nodup (ts : List (Int × Int × Int × Value))
    (hr : (ts.map munKey3).Nodup) (gr : Int × Int × Int × List Nat) :
    munRowsFor ts gr = [munJoinOne ts gr] := by
  unfold munRowsFor munJoinOne
  rw [find?_eq_head_filter]
  cases hf : ts.filter (fun tr => munKey3 tr == munKey3 gr) with
  | nil => rfl
  | cons tr rest =>
    have hlen := filter_key_subsingleton munKey3 ts hr (munKey3 gr)
    rw [hf] at hlen
    have hrest : rest = [] := by
      rw [List.length_cons] at hlen
      exact List.eq_nil_of_length_eq_zero (by omega)
    subst hrest
    rfl

theorem munLeftJoin_eq_of_nodup (gs : List (Int × Int × Int × List Nat))
    (ts : List (Int × Int × Int × Value)) (hr : (ts.map munKey3).Nodup) :
    munLeftJoin gs ts = gs.map (munJoinOne ts) := by
  unfold munLeftJoin
  induction gs with
  | nil => rfl
  | cons gr t ih =>
    rw [List.flatMap_cons, List.map_cons, ih, munRowsFor_eq_of_nodup ts hr gr]
    rfl

/-- Claim C10: the municipal year join validates the merge as one-to-one on
(Year, Ward, Sub): duplicate keys among the year-filtered, numerically
aligned geometry records raise the left MergeError, duplicate keys on the
turnout side raise the right MergeError, and otherwise the call returns
exactly one output row per geometry record, each joined with at most one
turnout record (the find? of munJoinOne). -/
theorem claim_C10_municipal_one_to_one (y : Int) (g : List MunGeoRow) (t : List MunTurnRow) :
    (¬ ((munProcessGeo y g).map munKey3).Nodup →
       prepare_municipal_year_gdf y g t = .error errMergeLeft) ∧
    (((munProcessGeo y g).map munKey3).Nodup → ¬ ((munProcessTurn y t).map munKey3).Nodup →
       prepare_municipal_year_gdf y g t = .error errMergeRight) ∧
    (((munProcessGeo y g).map munKey3).Nodup → ((munProcessTurn y t).map munKey3).Nodup →
       prepare_municipal_year_gdf y g t =
         .ok ((munProcessGeo y g).map (munJoinOne (munProcessTurn y t)))) := by
  refine ⟨?_, ?_, ?_⟩
  · intro hnl
    unfold prepare_municipal_year_gdf
    rw [if_pos (by rw [decide_eq_false hnl]; rfl)]
  · intro hl hnr
    unfold prepare_municipal_year_gdf
    rw [if_neg (by rw [decide_eq_true hl]; simp)]
    rw [if_pos (by rw [decide_eq_false hnr]; rfl)]
  · intro hl hr
    unfold prepare_municipal_year_gdf
    rw [if_neg (by rw [decide_eq_true hl]; simp)]
    rw [if_neg (by rw [decide_eq_true hr]; simp)]
    rw [munLeftJoin_eq_of_nodup _ _ hr]

theorem claim_C10_municipal_one_to_one_witness :
    prepare_municipal_year_gdf 2022 munGeoEx munTurnEx =
      .ok ((munProcessGeo 2022 munGeoEx).map (munJoinOne (munProcessTurn 2022 munTurnEx))) ∧
    prepare_municipal_year_gdf 2022 munGeoDupEx munTurnEx = .error errMergeLeft ∧
    prepare_municipal_year_gdf 2022 munGeoEx munTurnDupEx = .error errMergeRight :=
  ⟨(claim_C10_municipal_one_to_one 2022 munGeoEx munTurnEx).2.2 (by decide) (by decide),
   (claim_C10_municipal_one_to_one 2022 munGeoDupEx munTurnEx).1 (by decide),
   (claim_C10_municipal_one_to_one 2022 munGeoEx munTurnDupEx).2.1 (by decide) (by decide)⟩

theorem contains_true {l : List PyStr} {a : PyStr} (h : a ∈ l) : l.contains a = true :=
  List.elem_iff.mpr h

theorem renameStage_of_year (gdf : DF) (h1 : ps "year" ∈ gdf.cols) : renameStage gdf = gdf := by
  unfold renameStage
  rw [if_neg (fun hand => hand.2 (List.elem_iff.mpr h1))]

/-- On the preferred path the join engine reduces to: filter both sides by
year, restrict to non-empty keys, dissolve duplicates, left-merge on the
composite key, simplify; the inputs come back to the caller untouched. -/
theorem prepare_preferred_eq (gdf fed : DF) (y : Int) (hint : Option PyStr) (draise : Bool)
    (h1 : ps "year" ∈ gdf.cols) (h2 : ps "geo_key" ∈ gdf.cols) (h3 : ps "geo_key" ∈ fed.cols)
    (h4 : ps "year" ∈ fed.cols) (h5 : (keyedView (yearFilter gdf y)).rows ≠ []) :
    prepare_map_df gdf fed y hint draise =
      .ok (simplifyDF (mergeDF (dedupPreferred (keyedView (yearFilter gdf y)) draise)
            (yearFilter fed y) (ps "geo_key")), gdf, fed) := by
  have hv : (yearFilter gdf y).rows ≠ [] := by
    intro hnil
    refine h5 ?_
    show ((yearFilter gdf y).rows.filter _) = []
    rw [hnil]
    rfl
  simp only [prepare_map_df]
  rw [renameStage_of_year gdf h1]
  rw [ite_bool_neg (show (!(gdf.cols.contains (ps "year"))) = false from by
    rw [contains_true h1]
    rfl)]
  rw [ite_bool_neg (show (yearFilter gdf y).rows.isEmpty = false from
    Bool.eq_false_iff.mpr (fun ht => hv (List.isEmpty_iff.mp ht)))]
  rw [ite_bool_pos (show ((yearFilter gdf y).cols.contains (ps "geo_key") &&
      fed.cols.contains (ps "geo_key")) = true from by
    rw [show (yearFilter gdf y).cols.contains (ps "geo_key") = true from contains_true h2,
      show fed.cols.contains (ps "geo_key") = true from contains_true h3]
    rfl)]
  rw [ite_bool_pos (show (!(keyedView (yearFilter gdf y)).rows.isEmpty) = true from by
    rw [show (keyedView (yearFilter gdf y)).rows.isEmpty = false from
      Bool.eq_false_iff.mpr (fun ht => h5 (List.isEmpty_iff.mp ht))]
    rfl)]
  rw [ite_bool_neg (show (!(fed.cols.contains (ps "year"))) = false from by
    rw [contains_true h4]
    rfl)]

theorem append_x_ne_geoKey (c : PyStr) : ¬ c ++ ps "_x" = ps "geo_key" := by
  intro h
  have h1 := congrArg List.getLast? h
  rw [List.getLast?_append] at h1
  have h2 : (ps "_x").getLast?.or c.getLast? = some 'x' := rfl
  rw [h2] at h1
  exact absurd h1 (by decide)

theorem dedupPreferred_cols (view2 : DF) (draise : Bool) :
    (dedupPreferred view2 draise).cols =
      if hasDupKeys (ps "geo_key") view2.rows = true ∧ draise = false
      then [ps "geo_key", ps "geometry", ps "year"] else view2.cols := by
  unfold dedupPreferred
  by_cases hd : hasDupKeys (ps "geo_key") view2.rows = true
  · rw [ite_bool_pos hd]
    cases draise with
    | true =>
      rw [ite_bool_pos rfl, if_neg (fun hand => Bool.noConfusion hand.2)]
    | false =>
      rw [ite_bool_neg rfl, if_pos ⟨hd, rfl⟩]
  · rw [ite_bool_neg (Bool.eq_false_iff.mpr hd), if_neg (fun hand => hd hand.1)]

theorem dedupPreferred_geoKey_mem (view2 : DF) (draise : Bool)
    (h2 : ps "geo_key" ∈ view2.cols) :
    ps "geo_key" ∈ (dedupPreferred view2 draise).cols := by
  rw [dedupPreferred_cols]
  split
  · exact List.mem_cons_self _ _
  · exact h2

theorem dedupPreferred_facts (view2 : DF) (draise : Bool) :
    (∀ k ∈ colKeys (ps "geo_key") view2.rows,
       ∃ lr ∈ (dedupPreferred view2 draise).rows, rowKey (ps "geo_key") lr = k) ∧
    (colKeys (ps "geo_key") view2.rows).dedup.length ≤ (dedupPreferred view2 draise).rows.length := by
  unfold dedupPreferred
  by_cases hd : hasDupKeys (ps "geo_key") view2.rows = true
  · rw [ite_bool_pos hd]
    cases draise with
    | true =>
      rw [ite_bool_pos rfl]
      constructor
      · intro k hk
        have hmem : k ∈ (manualUnionRows (ps "geo_key") view2.rows).map (rowKey (ps "geo_key")) := by
          rw [manualUnionRows_keys, mem_sortBy, List.mem_dedup]
          exact hk
        rcases List.mem_map.mp hmem with ⟨lr, hlr, hkey⟩
        exact ⟨lr, hlr, hkey⟩
      · have h := congrArg List.length (manualUnionRows_keys (ps "geo_key") view2.rows)
        rw [List.length_map, length_sortBy] at h
        exact Nat.le_of_eq h.symm
    | false =>
      rw [ite_bool_neg rfl]
      constructor
      · intro k hk
        have hmem : k ∈ (dissolveRows (ps "geo_key") [ps "year"] view2.rows).map
            (rowKey (ps "geo_key")) := by
          rw [dissolveRows_keys, mem_sortBy, List.mem_dedup]
          exact hk
        rcases List.mem_map.mp hmem with ⟨lr, hlr, hkey⟩
        exact ⟨lr, hlr, hkey⟩
      · have h := congrArg List.length (dissolveRows_keys (ps "geo_key") [ps "year"] view2.rows)
        rw [List.length_map, length_sortBy] at h
        exact Nat.le_of_eq h.symm
  · rw [ite_bool_neg (Bool.eq_false_iff.mpr hd)]
    constructor
    · intro k hk
      rcases List.mem_map.mp hk with ⟨lr, hlr, hkey⟩
      exact ⟨lr, hlr, hkey⟩
    · calc (colKeys (ps "geo_key") view2.rows).dedup.length
          ≤ (colKeys (ps "geo_key") view2.rows).length := (List.dedup_sublist _).length_le
        _ = view2.rows.length := List.length_map _ _

/-- Claim C1 counterexample: with two geometry rows sharing the composite
key 2015__42 and an empty turnout source, prepare_map_df returns one row
while the year-filtered geometry has two rows, so the output neither
contains every year-filtered geometry row nor satisfies the row-count lower
bound the claim states. -/
theorem claim_C1_counterexample :
    okRowsLen (prepare_map_df gDupEx fedEmptyEx 2015 none false) = some 1 ∧
    (yearFilter gDupEx 2015).rows.length = 2 := by
  decide

/-- Claim C1 (amended): on the composite-key join path (both sides carry
geo_key and year, and the year-filtered geometry restricted to non-empty
keys is non-empty; merge-suffix names assumed collision-free), the join is
a left merge anchored on the deduplicated geometry: the call returns
without error and without touching its inputs, every composite key of the
year-filtered non-empty-key geometry appears in the output, the output row
count is at least the number of distinct such keys (not the raw
year-filtered row count, which deduplication may shrink), and output rows
without a turnout match carry NaN in every turnout-derived column. -/
theorem claim_C1_left_join_anchoring (gdf fed : DF) (y : Int) (hint : Option PyStr) (draise : Bool)
    (h1 : ps "year" ∈ gdf.cols) (h2 : ps "geo_key" ∈ gdf.cols) (h3 : ps "geo_key" ∈ fed.cols)
    (h4 : ps "year" ∈ fed.cols)
    (h5 : (keyedView (yearFilter gdf y)).rows ≠ [])
    (hdisj : ∀ c ∈ fed.cols, ¬ c = ps "geo_key" →
       rightOutName (dedupPreferred (keyedView (yearFilter gdf y)) draise).cols c ∉
         (dedupPreferred (keyedView (yearFilter gdf y)) draise).cols.map
           (leftOutName fed.cols (ps "geo_key"))) :
    ∃ m : DF, prepare_map_df gdf fed y hint draise = .ok (m, gdf, fed) ∧
      (∀ k ∈ colKeys (ps "geo_key") (keyedView (yearFilter gdf y)).rows,
         ∃ mr ∈ m.rows, rowGetD mr (ps "geo_key") .vnan = k) ∧
      (colKeys (ps "geo_key") (keyedView (yearFilter gdf y)).rows).dedup.length ≤ m.rows.length ∧
      (∀ mr ∈ m.rows,
         (yearFilter fed y).rows.filter
           (fun rr => rowGetD rr (ps "geo_key") .vnan == rowGetD mr (ps "geo_key") .vnan) = [] →
         ∀ c ∈ fed.cols, ¬ c = ps "geo_key" →
           rowGetD mr (rightOutName (dedupPreferred (keyedView (yearFilter gdf y)) draise).cols c)
             .vnan = .vnan) := by
  have hon : ps "geo_key" ∈ (dedupPreferred (keyedView (yearFilter gdf y)) draise).cols :=
    dedupPreferred_geoKey_mem _ _ h2
  refine ⟨_, prepare_preferred_eq gdf fed y hint draise h1 h2 h3 h4 h5, ?_, ?_, ?_⟩
  · intro k hk
    rcases (dedupPreferred_facts (keyedView (yearFilter gdf y)) draise).1 k hk with ⟨lr, hlr, hkey⟩
    rcases mergeDF_key_surj (dedupPreferred (keyedView (yearFilter gdf y)) draise)
        (yearFilter fed y) (ps "geo_key") hon append_x_ne_geoKey lr hlr with ⟨mr, hmr, hval⟩
    exact ⟨mr, hmr, by rw [hval]; exact hkey⟩
  · exact Nat.le_trans (dedupPreferred_facts (keyedView (yearFilter gdf y)) draise).2
      (mergeDF_length_ge _ _ _)
  · exact mergeDF_unmatched_null (dedupPreferred (keyedView (yearFilter gdf y)) draise)
      (yearFilter fed y) (ps "geo_key") hon append_x_ne_geoKey hdisj

theorem claim_C1_left_join_anchoring_witness :
    ∃ m : DF, prepare_map_df gDupEx fedOneEx 2015 none false = .ok (m, gDupEx, fedOneEx) ∧
      (∀ k ∈ colKeys (ps "geo_key") (keyedView (yearFilter gDupEx 2015)).rows,
         ∃ mr ∈ m.rows, rowGetD mr (ps "geo_key") .vnan = k) ∧
      (colKeys (ps "geo_key") (keyedView (yearFilter gDupEx 2015)).rows).dedup.length ≤
        m.rows.length ∧
      (∀ mr ∈ m.rows,
         (yearFilter fedOneEx 2015).rows.filter
           (fun rr => rowGetD rr (ps "geo_key") .vnan == rowGetD mr (ps "geo_key") .vnan) = [] →
         ∀ c ∈ fedOneEx.cols, ¬ c = ps "geo_key" →
           rowGetD mr
             (rightOutName (dedupPreferred (keyedView (yearFilter gDupEx 2015)) false).cols c)
             .vnan = .vnan) :=
  claim_C1_left_join_anchoring gDupEx fedOneEx 2015 none false (by decide) (by decide) (by decide)
    (by decide) (by decide) (by decide)

theorem detect_join_key_none (gcols dcols : List PyStr)
    (hex : ∀ k ∈ possibleKeys, ¬(k ∈ gcols ∧ k ∈ dcols))
    (hci : ∀ k ∈ possibleKeys,
      ¬((∃ c ∈ gcols, lowerStr c = k) ∧ (∃ c ∈ dcols, lowerStr c = k))) :
    detect_join_key gcols dcols = none := by
  unfold detect_join_key
  have e1 : possibleKeys.find? (fun k => gcols.contains k && dcols.contains k) = none := by
    rw [List.find?_eq_none]
    intro k hk hp
    rcases (Bool.and_eq_true _ _).mp hp with ⟨ha, hb⟩
    exact hex k hk ⟨List.elem_iff.mp ha, List.elem_iff.mp hb⟩
  have e2 : possibleKeys.find? (fun k =>
      (gcols.any (fun c => lowerStr c == k)) && (dcols.any (fun c => lowerStr c == k))) = none := by
    rw [List.find?_eq_none]
    intro k hk hp
    rcases (Bool.and_eq_true _ _).mp hp with ⟨ha, hb⟩
    rcases List.any_eq_true.mp ha with ⟨c1, hc1, he1⟩
    rcases List.any_eq_true.mp hb with ⟨c2, hc2, he2⟩
    exact hci k hk ⟨⟨c1, hc1, beq_iff_eq.mp he1⟩, ⟨c2, hc2, beq_iff_eq.mp he2⟩⟩
  rw [e1, e2]

theorem detectStage_none_of (view fed : DF)
    (hcand : ∀ k ∈ fallbackCandidates none, ¬(k ∈ view.cols ∧ k ∈ fed.cols))
    (hci : ∀ k ∈ possibleKeys,
      ¬((∃ c ∈ view.cols, lowerStr c = k) ∧ (∃ c ∈ fed.cols, lowerStr c = k))) :
    detectStage view fed none = none := by
  unfold detectStage
  have e1 : (fallbackCandidates none).find?
      (fun k => view.cols.contains k && fed.cols.contains k) = none := by
    rw [List.find?_eq_none]
    intro k hk hp
    rcases (Bool.and_eq_true _ _).mp hp with ⟨ha, hb⟩
    exact hcand k hk ⟨List.elem_iff.mp ha, List.elem_iff.mp hb⟩
  have hex : ∀ k ∈ possibleKeys, ¬(k ∈ view.cols ∧ k ∈ fed.cols) := by
    intro k hk
    refine hcand k ?_
    rcases List.mem_cons.mp hk with rfl | hk2
    · exact List.mem_cons_self _ _
    rcases List.mem_cons.mp hk2 with rfl | hk3
    · exact List.mem_cons_of_mem _ (List.mem_cons_self _ _)
    rcases List.mem_cons.mp hk3 with rfl | hk4
    · exact List.mem_cons_of_mem _ (List.mem_cons_of_mem _
        (List.mem_cons_of_mem _ (List.mem_cons_self _ _)))
    · exact absurd hk4 (List.not_mem_nil k)
  rw [e1, detect_join_key_none view.cols fed.cols hex hci]

theorem fallbackJoin_noKey (viewF gAll fed0 : DF) (y : Int) (draise : Bool)
    (hdet : detectStage viewF fed0 none = none) :
    fallbackJoin viewF gAll fed0 y none draise = .error errNoJoinKey := by
  unfold fallbackJoin
  rw [hdet]

theorem prepare_missing_year (gdf fed : DF) (y : Int) (hint : Option PyStr) (draise : Bool)
    (hy : ps "year" ∉ (renameStage gdf).cols) :
    prepare_map_df gdf fed y hint draise = .error errMissingYear := by
  simp only [prepare_map_df]
  rw [ite_bool_pos (show (!(renameStage gdf).cols.contains (ps "year")) = true from by
    rw [show (renameStage gdf).cols.contains (ps "year") = false from
      Bool.eq_false_iff.mpr (fun ht => hy (List.elem_iff.mp ht))]
    rfl)]

theorem prepare_empty_ok (gdf fed : DF) (y : Int) (hint : Option PyStr) (draise : Bool)
    (hy : ps "year" ∈ (renameStage gdf).cols)
    (hempty : (yearFilter (renameStage gdf) y).rows = []) :
    prepare_map_df gdf fed y hint draise = .ok (yearFilter (renameStage gdf) y, gdf, fed) := by
  simp only [prepare_map_df]
  rw [ite_bool_neg (show (!(renameStage gdf).cols.contains (ps "year")) = false from by
    rw [contains_true hy]
    rfl)]
  rw [ite_bool_pos (show (yearFilter (renameStage gdf) y).rows.isEmpty = true from by
    rw [hempty]
    rfl)]

theorem prepare_fallback_eq (gdf fed : DF) (y : Int) (hint : Option PyStr) (draise : Bool)
    (h1 : ps "year" ∈ gdf.cols)
    (hv : (yearFilter gdf y).rows ≠ [])
    (hng : ((yearFilter gdf y).cols.contains (ps "geo_key") &&
      fed.cols.contains (ps "geo_key")) = false) :
    prepare_map_df gdf fed y hint draise = fallbackJoin (yearFilter gdf y) gdf fed y hint draise := by
  simp only [prepare_map_df]
  rw [renameStage_of_year gdf h1]
  rw [ite_bool_neg (show (!(gdf.cols.contains (ps "year"))) = false from by
    rw [contains_true h1]
    rfl)]
  rw [ite_bool_neg (show (yearFilter gdf y).rows.isEmpty = false from
    Bool.eq_false_iff.mpr (fun ht => hv (List.isEmpty_iff.mp ht)))]
  rw [ite_bool_neg hng]

theorem sortBy_ne_nil {α : Type} (le : α → α → Bool) (l : List α) (h : l ≠ []) :
    sortBy le l ≠ [] := by
  intro hnil
  have hlen := (sortBy_perm le l).length_eq
  rw [hnil] at hlen
  exact h (List.eq_nil_of_length_eq_zero hlen.symm)

theorem colKeys_ne_nil (key : PyStr) (rows : List Row) (h : rows ≠ []) :
    colKeys key rows ≠ [] := by
  unfold colKeys
  exact fun hnil => h (List.map_eq_nil_iff.mp hnil)

theorem dedup_ne_nil (l : List Value) (h : l ≠ []) : l.dedup ≠ [] := by
  intro hnil
  rcases List.exists_mem_of_ne_nil _ h with ⟨a, ha⟩
  have hmem := List.mem_dedup.mpr ha
  rw [hnil] at hmem
  exact absurd hmem (List.not_mem_nil a)

theorem dissolveRows_ne_nil (key : PyStr) (attrs : List PyStr) (rows : List Row)
    (h : rows ≠ []) : dissolveRows key attrs rows ≠ [] := by
  unfold dissolveRows
  intro hnil
  exact sortBy_ne_nil valLe _ (dedup_ne_nil _ (colKeys_ne_nil key rows h))
    (List.map_eq_nil_iff.mp hnil)

theorem manualUnionRows_ne_nil (key : PyStr) (rows : List Row) (h : rows ≠ []) :
    manualUnionRows key rows ≠ [] := by
  unfold manualUnionRows
  intro hnil
  exact sortBy_ne_nil valLe _ (dedup_ne_nil _ (colKeys_ne_nil key rows h))
    (List.map_eq_nil_iff.mp hnil)

theorem dedupFallback_rows_ne_nil (viewD : DF) (jk : PyStr) (y : Int) (flag : Bool)
    (h : viewD.rows ≠ []) : (dedupFallback viewD jk y flag).rows ≠ [] := by
  unfold dedupFallback
  by_cases hd : hasDupKeys jk viewD.rows = true
  · rw [ite_bool_pos hd]
    cases flag with
    | true =>
      rw [ite_bool_pos rfl]
      exact manualUnionRows_ne_nil jk viewD.rows h
    | false =>
      rw [ite_bool_neg rfl]
      dsimp only
      split <;> split
      all_goals
        first
        | exact dissolveRows_ne_nil jk _ viewD.rows h
        | exact fun hnil => dissolveRows_ne_nil jk _ viewD.rows h (List.map_eq_nil_iff.mp hnil)
  · rw [ite_bool_neg (Bool.eq_false_iff.mpr hd)]
    exact h

theorem mergeDF_rows_ne_nil (l r : DF) (onc : PyStr) (h : l.rows ≠ []) :
    (mergeDF l r onc).rows ≠ [] := by
  intro hnil
  have hge := mergeDF_length_ge l r onc
  rw [hnil] at hge
  exact h (List.eq_nil_of_length_eq_zero (Nat.le_zero.mp hge))

theorem deltaStage_okB_congr (fedN m1 m2 : DF) (y : Int) :
    okB (deltaStage fedN m1 y) = okB (deltaStage fedN m2 y) := by
  unfold deltaStage
  split_ifs <;> rfl

theorem fallbackJoin_okB_flag (viewF gAll fed0 : DF) (y : Int) (hint : Option PyStr) :
    okB (fallbackJoin viewF gAll fed0 y hint true) =
      okB (fallbackJoin viewF gAll fed0 y hint false) := by
  unfold fallbackJoin
  cases hd : detectStage viewF fed0 hint with
  | none => rfl
  | some trip =>
    rcases trip with ⟨jk, fed1, aliased⟩
    dsimp only
    by_cases hvd : (dropMissing (normStage viewF fed1 jk).1 jk).rows.isEmpty = true
    · rw [ite_bool_pos hvd, ite_bool_pos hvd]
    · rw [ite_bool_neg (Bool.eq_false_iff.mpr hvd), ite_bool_neg (Bool.eq_false_iff.mpr hvd)]
      by_cases hfy : (!(normStage viewF fed1 jk).2.cols.contains (ps "year")) = true
      · rw [ite_bool_pos hfy, ite_bool_pos hfy]
      · rw [ite_bool_neg (Bool.eq_false_iff.mpr hfy), ite_bool_neg (Bool.eq_false_iff.mpr hfy)]
        have hvd2 : (dropMissing (normStage viewF fed1 jk).1 jk).rows ≠ [] :=
          fun hnil => hvd (by rw [show (dropMissing (normStage viewF fed1 jk).1 jk).rows.isEmpty
            = true from by rw [hnil]; rfl])
        have hne1 : (mergeDF (dedupFallback (dropMissing (normStage viewF fed1 jk).1 jk) jk y true)
            (yearFilter (normStage viewF fed1 jk).2 y) jk).rows ≠ [] :=
          mergeDF_rows_ne_nil _ _ _ (dedupFallback_rows_ne_nil _ _ _ _ hvd2)
        have hne2 : (mergeDF (dedupFallback (dropMissing (normStage viewF fed1 jk).1 jk) jk y false)
            (yearFilter (normStage viewF fed1 jk).2 y) jk).rows ≠ [] :=
          mergeDF_rows_ne_nil _ _ _ (dedupFallback_rows_ne_nil _ _ _ _ hvd2)
        rw [ite_bool_neg (Bool.eq_false_iff.mpr (fun ht => hne1 (List.isEmpty_iff.mp ht)))]
        rw [ite_bool_neg (Bool.eq_false_iff.mpr (fun ht => hne2 (List.isEmpty_iff.mp ht)))]
        have hcong := deltaStage_okB_congr (normStage viewF fed1 jk).2
          (mergeDF (dedupFallback (dropMissing (normStage viewF fed1 jk).1 jk) jk y true)
            (yearFilter (normStage viewF fed1 jk).2 y) jk)
          (mergeDF (dedupFallback (dropMissing (normStage viewF fed1 jk).1 jk) jk y false)
            (yearFilter (normStage viewF fed1 jk).2 y) jk) y
        cases h1 : deltaStage (normStage viewF fed1 jk).2
            (mergeDF (dedupFallback (dropMissing (normStage viewF fed1 jk).1 jk) jk y true)
              (yearFilter (normStage viewF fed1 jk).2 y) jk) y with
        | error e1 =>
          cases h2 : deltaStage (normStage viewF fed1 jk).2
              (mergeDF (dedupFallback (dropMissing (normStage viewF fed1 jk).1 jk) jk y false)
                (yearFilter (normStage viewF fed1 jk).2 y) jk) y with
          | error e2 => rfl
          | ok m2 =>
            rw [h1, h2] at hcong
            exact Bool.noConfusion hcong
        | ok m1 =>
          cases h2 : deltaStage (normStage viewF fed1 jk).2
              (mergeDF (dedupFallback (dropMissing (normStage viewF fed1 jk).1 jk) jk y false)
                (yearFilter (normStage viewF fed1 jk).2 y) jk) y with
          | error e2 =>
            rw [h1, h2] at hcong
            exact Bool.noConfusion hcong
          | ok m2 => rfl

theorem prepare_okB_flag (gdf fed : DF) (y : Int) (hint : Option PyStr) :
    okB (prepare_map_df gdf fed y hint true) = okB (prepare_map_df gdf fed y hint false) := by
  simp only [prepare_map_df]
  by_cases c1 : (!(renameStage gdf).cols.contains (ps "year")) = true
  · rw [ite_bool_pos c1, ite_bool_pos c1]
  · rw [ite_bool_neg (Bool.eq_false_iff.mpr c1), ite_bool_neg (Bool.eq_false_iff.mpr c1)]
    by_cases c2 : (yearFilter (renameStage gdf) y).rows.isEmpty = true
    · rw [ite_bool_pos c2, ite_bool_pos c2]
    · rw [ite_bool_neg (Bool.eq_false_iff.mpr c2), ite_bool_neg (Bool.eq_false_iff.mpr c2)]
      by_cases c3 : ((yearFilter (renameStage gdf) y).cols.contains (ps "geo_key") &&
          fed.cols.contains (ps "geo_key")) = true
      · rw [ite_bool_pos c3, ite_bool_pos c3]
        by_cases c4 : (!(keyedView (yearFilter (renameStage gdf) y)).rows.isEmpty) = true
        · rw [ite_bool_pos c4, ite_bool_pos c4]
          by_cases c5 : (!fed.cols.contains (ps "year")) = true
          · rw [ite_bool_pos c5, ite_bool_pos c5]
          · rw [ite_bool_neg (Bool.eq_false_iff.mpr c5), ite_bool_neg (Bool.eq_false_iff.mpr c5)]
            rfl
        · rw [ite_bool_neg (Bool.eq_false_iff.mpr c4), ite_bool_neg (Bool.eq_false_iff.mpr c4)]
          exact fallbackJoin_okB_flag _ _ _ _ _
      · rw [ite_bool_neg (Bool.eq_false_iff.mpr c3), ite_bool_neg (Bool.eq_false_iff.mpr c3)]
        exact fallbackJoin_okB_flag _ _ _ _ _

/-- Claim C4 counterexample: a geometry input without a year (or
election_year) column makes prepare_map_df raise the missing-year error, so
the no-valid-join-key failure is not the only raising condition of the
join engine. -/
theorem claim_C4_counterexample :
    prepare_map_df gNoYearEx fedNoKeyEx 2015 none false = .error errMissingYear ∧
    ¬ errMissingYear = errNoJoinKey := by
  decide

/-- Claim C4 (amended): on the fallback join path, if no candidate join key
(riding_id, riding_name, riding_num, name) exists on both sides either
exactly or case-insensitively, and the composite key is unavailable on at
least one side, prepare_map_df raises the no-valid-join-key error.  This is
not the only raising condition: a geometry input lacking a year column
raises the missing-year error.  Empty year-filtered geometry does not raise
(the call completes), and a failing dissolve does not raise (completion is
independent of whether the dissolve call raised internally and the manual
union ran instead); simplification failure is swallowed in the source and
the model treats simplification as total. -/
theorem claim_C4_error_conditions (gdf fed : DF) (y : Int) (hint : Option PyStr) (draise : Bool) :
    ((ps "year" ∈ gdf.cols) → (yearFilter gdf y).rows ≠ [] →
     ¬(ps "geo_key" ∈ gdf.cols ∧ ps "geo_key" ∈ fed.cols) →
     (∀ k ∈ fallbackCandidates none, ¬(k ∈ gdf.cols ∧ k ∈ fed.cols)) →
     (∀ k ∈ possibleKeys,
        ¬((∃ c ∈ gdf.cols, lowerStr c = k) ∧ (∃ c ∈ fed.cols, lowerStr c = k))) →
     prepare_map_df gdf fed y none draise = .error errNoJoinKey) ∧
    (ps "year" ∉ (renameStage gdf).cols →
     prepare_map_df gdf fed y hint draise = .error errMissingYear) ∧
    (ps "year" ∈ (renameStage gdf).cols → (yearFilter (renameStage gdf) y).rows = [] →
     okB (prepare_map_df gdf fed y hint draise) = true) ∧
    okB (prepare_map_df gdf fed y hint true) = okB (prepare_map_df gdf fed y hint false) := by
  refine ⟨?_, ?_, ?_, prepare_okB_flag gdf fed y hint⟩
  · intro hy hv hng hcand hci
    have hngb : ((yearFilter gdf y).cols.contains (ps "geo_key") &&
        fed.cols.contains (ps "geo_key")) = false := by
      by_cases ha : ps "geo_key" ∈ gdf.cols
      · have hb : ps "geo_key" ∉ fed.cols := fun hbb => hng ⟨ha, hbb⟩
        rw [show fed.cols.contains (ps "geo_key") = false from
          Bool.eq_false_iff.mpr (fun ht => hb (List.elem_iff.mp ht)), Bool.and_false]
      · rw [show (yearFilter gdf y).cols.contains (ps "geo_key") = false from
          Bool.eq_false_iff.mpr (fun ht => ha (List.elem_iff.mp ht)), Bool.false_and]
    rw [prepare_fallback_eq gdf fed y none draise hy hv hngb]
    exact fallbackJoin_noKey _ _ _ _ _ (detectStage_none_of _ _ hcand hci)
  · intro hy
    exact prepare_missing_year gdf fed y hint draise hy
  · intro hy hempty
    rw [prepare_empty_ok gdf fed y hint draise hy hempty]
    rfl

theorem claim_C4_error_conditions_witness :
    prepare_map_df gNoKeyEx fedNoKeyEx 2015 none false = .error errNoJoinKey :=
  (claim_C4_error_conditions gNoKeyEx fedNoKeyEx 2015 none false).1 (by decide) (by decide)
    (by decide) (by decide) (by decide)


theorem fallbackJoin_ok_gAll (viewF gAll fed0 : DF) (y : Int) (hint : Option PyStr)
    (draise : Bool) (m gA fA : DF)
    (h : fallbackJoin viewF gAll fed0 y hint draise = .ok (m, gA, fA)) : gA = gAll := by
  unfold fallbackJoin at h
  cases hd : detectStage viewF fed0 hint with
  | none =>
    rw [hd] at h
    exact Except.noConfusion h
  | some trip =>
    rcases trip with ⟨jk, fed1, aliased⟩
    rw [hd] at h
    dsimp only at h
    split at h
    · exact (congrArg (fun t => t.2.1) (Except.ok.inj h)).symm
    · split at h
      · exact Except.noConfusion h
      · split at h
        · exact (congrArg (fun t => t.2.1) (Except.ok.inj h)).symm
        · split at h
          · exact Except.noConfusion h
          · exact (congrArg (fun t => t.2.1) (Except.ok.inj h)).symm

theorem prepare_ok_gAll (gdf fed : DF) (y : Int) (hint : Option PyStr) (draise : Bool)
    (m gA fA : DF) (h : prepare_map_df gdf fed y hint draise = .ok (m, gA, fA)) : gA = gdf := by
  simp only [prepare_map_df] at h
  split at h
  · exact Except.noConfusion h
  · split at h
    · exact (congrArg (fun t => t.2.1) (Except.ok.inj h)).symm
    · split at h
      · split at h
        · split at h
          · exact Except.noConfusion h
          · exact (congrArg (fun t => t.2.1) (Except.ok.inj h)).symm
        · exact fallbackJoin_ok_gAll _ _ _ _ _ _ _ _ _ h
      · exact fallbackJoin_ok_gAll _ _ _ _ _ _ _ _ _ h

/-- Claim C8 counterexample: on the fallback path with an exact riding_name
join key, prepare_map_df normalizes the join-key column of the turnout
input in place, so the caller observes a changed turnout frame after the
call. -/
theorem claim_C8_counterexample :
    fedAfterOf (prepare_map_df gNameEx fedNameEx 2015 none false) = some fedNameMutEx ∧
    ¬ fedNameMutEx = fedNameEx := by
  decide

/-- Claim C8 (amended): prepare_map_df never mutates the geometry input
(every completed call returns it unchanged), and on the preferred
composite-key path it does not mutate the turnout input either; on the
fallback path the turnout input is normalized in place unless the join key
was found by a case-insensitive rename (see the counterexample). -/
theorem claim_C8_no_input_mutation (gdf fed : DF) (y : Int) (hint : Option PyStr)
    (draise : Bool) :
    (∀ m gA fA, prepare_map_df gdf fed y hint draise = .ok (m, gA, fA) → gA = gdf) ∧
    (ps "year" ∈ gdf.cols → ps "geo_key" ∈ gdf.cols → ps "geo_key" ∈ fed.cols →
     ps "year" ∈ fed.cols → (keyedView (yearFilter gdf y)).rows ≠ [] →
     ∀ m gA fA, prepare_map_df gdf fed y hint draise = .ok (m, gA, fA) → fA = fed) := by
  constructor
  · intro m gA fA h
    exact prepare_ok_gAll gdf fed y hint draise m gA fA h
  · intro h1 h2 h3 h4 h5 m gA fA h
    rw [prepare_preferred_eq gdf fed y hint draise h1 h2 h3 h4 h5] at h
    exact (congrArg (fun t => t.2.2) (Except.ok.inj h)).symm

theorem claim_C8_no_input_mutation_witness :
    fedAfterOf (prepare_map_df gDupEx fedOneEx 2015 none false) = some fedOneEx := by
  have h := (claim_C8_no_input_mutation gDupEx fedOneEx 2015 none false).2 (by decide)
    (by decide) (by decide) (by decide) (by decide)
  have hok : okB (prepare_map_df gDupEx fedOneEx 2015 none false) = true := by decide
  cases hp : prepare_map_df gDupEx fedOneEx 2015 none false with
  | error e =>
    rw [hp] at hok
    exact Bool.noConfusion hok
  | ok t =>
    rcases t with ⟨m, gA, fA⟩
    show some fA = some fedOneEx
    rw [h m gA fA hp]

/-- Claim C9: when the year-filtered geometry source has no records, the
join engine returns an empty frame (the filtered view itself) and does not
raise; the inputs come back unchanged. -/
theorem claim_C9_empty_year_returns_empty (gdf fed : DF) (y : Int) (hint : Option PyStr)
    (draise : Bool) (hy : ps "year" ∈ (renameStage gdf).cols)
    (hempty : (yearFilter (renameStage gdf) y).rows = []) :
    prepare_map_df gdf fed y hint draise =
      .ok ({ cols := (renameStage gdf).cols, rows := [] }, gdf, fed) := by
  rw [prepare_empty_ok gdf fed y hint draise hy hempty]
  have hdf : yearFilter (renameStage gdf) y = { cols := (renameStage gdf).cols, rows := [] } := by
    have h2 : (yearFilter (renameStage gdf) y).rows = [] := hempty
    show ({ cols := (renameStage gdf).cols, rows := (yearFilter (renameStage gdf) y).rows } : DF) = _
    rw [h2]
  rw [hdf]

theorem claim_C9_empty_year_returns_empty_witness :
    prepare_map_df gYearOnlyEx fedNoKeyEx 2015 none false =
      .ok ({ cols := (renameStage gYearOnlyEx).cols, rows := [] }, gYearOnlyEx, fedNoKeyEx) :=
  claim_C9_empty_year_returns_empty gYearOnlyEx fedNoKeyEx 2015 none false (by decide) (by decide)

end Civic
